import Mathlib

/-!
# Verification of the listing-crawler core (price normalizer, bargain detector,
ingestion coordinator, alert dispatch)

Shallow embedding of `backend/app/services/{analytics,ingest,alerts,parsers}.py`.

Conventions of the embedding:
* Python `float` arithmetic is modelled with exact rationals (`ℚ`); the
  formulas involved are single short arithmetic expressions, so the claims
  under study are about the exact values.
* Timestamps (`datetime`) are modelled as minutes since the UTC epoch (`Int`);
  the calendar operations the code performs (`now.hour`, `replace(hour=…)`,
  day alignment) become arithmetic mod 1440.  Python's `%`/`//` are floor
  operations, i.e. `Int.emod`/`Int.ediv`.
* The SQLAlchemy session is modelled as an explicit record of table rows; a
  function that commits returns the new row lists, and a function that raises
  returns `Except.error` — in that case no updated database is produced at
  all, which models the transaction rollback (nothing is committed before the
  single `db.commit()` at the end of an ingestion call).
* Korean trade-type tags are kept verbatim: `"월세"` monthly-rent,
  `"매매"` sale, `"전세"` deposit-lease.
-/

/- ### Python string primitives used by the sources -/

/-- Python `str.strip()`: drop whitespace from both ends (char-list model). -/
def pyStripChars (l : List Char) : List Char :=
  ((l.dropWhile Char.isWhitespace).reverse.dropWhile Char.isWhitespace).reverse

/-- Python `str.strip()` on a `String`. -/
def pyStrip (s : String) : String :=
  ⟨pyStripChars s.data⟩

/-- Python `str.upper()` (ASCII case mapping; non-cased chars unchanged). -/
def pyUpper (s : String) : String :=
  ⟨s.data.map Char.toUpper⟩

/-- Python `str.isdigit()` restricted to ASCII digits (the price texts the
crawler stores contain only ASCII digits, `,`, spaces and `억`). -/
def pyIsDigitChars (l : List Char) : Bool :=
  !l.isEmpty && l.all (fun c => '0' ≤ c && c ≤ '9')

/-- `int()` applied to a string of decimal digits. -/
def digitsToNat (l : List Char) : Nat :=
  l.foldl (fun acc c => acc * 10 + (c.toNat - 48)) 0

/-- Python `cleaned.split("억")` (the separator is the single char `억`). -/
def splitOnEok (l : List Char) : List (List Char) :=
  match l with
  | [] => [[]]
  | c :: rest =>
    let r := splitOnEok rest
    if c = '억' then [] :: r
    else (c :: r.headD []) :: r.tail

/-- `parsers.price_to_manwon`: normalize a Korean price text
(`"10억 5,000"` → `105000`) into an integer number of 만원; `none` for
absent/unparsable text. -/
def price_to_manwon (value : Option String) : Option Int :=
  match value with
  | none => none
  | some v =>
    if v.data.isEmpty then none
    else
      let cleaned := (pyStripChars v.data).filter (fun c => c ≠ ',')
      if cleaned.isEmpty then none
      else if cleaned.contains '억' then
        let parts := splitOnEok cleaned
        let front := parts.headD []
        let rest := pyStripChars (parts.tail.headD [])
        let eok : Nat := if pyIsDigitChars front then digitsToNat front else 0
        let manwon : Nat := if pyIsDigitChars rest then digitsToNat rest else 0
        some ((eok * 10000 + manwon : Nat) : Int)
      else if pyIsDigitChars cleaned then some ((digitsToNat cleaned : Nat) : Int)
      else none

/- The repository's own unit tests for the parser
(`tests/test_ingest_utils.py::test_price_to_manwon_handles_eok_unit`). -/

example : price_to_manwon (some "10억") = some 100000 := by decide

example : price_to_manwon (some "10억 5,000") = some 105000 := by decide

example : price_to_manwon (some "8500") = some 8500 := by decide

example : price_to_manwon (some "invalid") = none := by decide

/- ### Python `str()` of an integer (used by `str.format` in the dedupe key) -/

/-- Big-endian decimal digit characters of `n` (empty for `0`); `fuel` bounds
the recursion and any `fuel ≥ n` computes the digits of `n`. -/
def natDigitChars (fuel : Nat) (n : Nat) : List Char :=
  match fuel with
  | 0 => []
  | fuel + 1 =>
    if n = 0 then []
    else natDigitChars fuel (n / 10) ++ [Nat.digitChar (n % 10)]

/-- Python `str(n)` for a natural number. -/
def pyNatStr (n : Nat) : String :=
  if n = 0 then "0" else ⟨natDigitChars n n⟩

/-- Python `str(i)` for an integer. -/
def pyIntStr (i : Int) : String :=
  if i < 0 then "-" ++ pyNatStr i.natAbs else pyNatStr i.natAbs

/-- How Python's `str.format` renders an optional integer field:
`None` prints as `"None"`, an integer as its decimal form. -/
def pyOptIntStr : Option Int → String
  | none => "None"
  | some i => pyIntStr i

theorem digitsToNat_append_digit (l : List Char) (c : Char) :
    digitsToNat (l ++ [c]) = digitsToNat l * 10 + (c.toNat - 48) := by
  simp [digitsToNat, List.foldl_append]

theorem digitChar_toNat_sub (d : Nat) (hd : d < 10) :
    (Nat.digitChar d).toNat - 48 = d := by
  interval_cases d <;> decide

theorem digitsToNat_natDigitChars :
    ∀ fuel n, n ≤ fuel → digitsToNat (natDigitChars fuel n) = n := by
  intro fuel
  induction fuel with
  | zero => intro n hn; interval_cases n; decide
  | succ fuel ih =>
    intro n hn
    by_cases h0 : n = 0
    · subst h0; simp [natDigitChars, digitsToNat]
    · have hdiv : n / 10 ≤ fuel := by
        have : n / 10 < n := Nat.div_lt_self (Nat.pos_of_ne_zero h0) (by omega)
        omega
      rw [natDigitChars]
      simp only [h0, if_false]
      rw [digitsToNat_append_digit, ih _ hdiv,
        digitChar_toNat_sub _ (Nat.mod_lt _ (by omega))]
      omega

theorem natDigitChars_digits (fuel n : Nat) :
    ∀ c ∈ natDigitChars fuel n, ∃ d, d < 10 ∧ c = Nat.digitChar d := by
  induction fuel generalizing n with
  | zero => intro c hc; simp [natDigitChars] at hc
  | succ fuel ih =>
    intro c hc
    rw [natDigitChars] at hc
    by_cases h0 : n = 0
    · simp [h0] at hc
    · simp only [h0, if_false, List.mem_append, List.mem_singleton] at hc
      rcases hc with hc | hc
      · exact ih _ c hc
      · exact ⟨n % 10, Nat.mod_lt _ (by omega), hc⟩

theorem digitChar_range : ∀ d < 10, '0' ≤ Nat.digitChar d ∧ Nat.digitChar d ≤ '9' := by
  decide

theorem pyNatStr_head_digitRange (n : Nat) :
    ∀ c, (pyNatStr n).data.head? = some c → '0' ≤ c ∧ c ≤ '9' := by
  intro c hc
  unfold pyNatStr at hc
  by_cases h0 : n = 0
  · simp only [h0, if_true] at hc
    have : c = '0' := by
      have : (("0" : String).data).head? = some '0' := rfl
      rw [this] at hc
      injection hc with h'
      exact h'.symm
    subst this; decide
  · simp only [h0, if_false] at hc
    obtain ⟨d, hd10, rfl⟩ :=
      natDigitChars_digits n n c (List.mem_of_mem_head? hc)
    exact digitChar_range d hd10

theorem pyNatStr_injective : Function.Injective pyNatStr := by
  intro m n h
  have hd : (pyNatStr m).data = (pyNatStr n).data := congrArg String.data h
  unfold pyNatStr at hd
  by_cases hm : m = 0 <;> by_cases hn : n = 0 <;>
    simp only [hm, hn, if_true, if_false] at hd
  · omega
  · exfalso
    have hv : digitsToNat (("0" : String).data) = digitsToNat (natDigitChars n n) :=
      congrArg digitsToNat hd
    rw [digitsToNat_natDigitChars n n le_rfl,
      show digitsToNat (("0" : String).data) = 0 from by decide] at hv
    exact hn hv.symm
  · exfalso
    have hv : digitsToNat (natDigitChars m m) = digitsToNat (("0" : String).data) :=
      congrArg digitsToNat hd
    rw [digitsToNat_natDigitChars m m le_rfl,
      show digitsToNat (("0" : String).data) = 0 from by decide] at hv
    exact hm hv
  · have hv : digitsToNat (natDigitChars m m) = digitsToNat (natDigitChars n n) :=
      congrArg digitsToNat hd
    rwa [digitsToNat_natDigitChars m m le_rfl,
      digitsToNat_natDigitChars n n le_rfl] at hv

theorem pyIntStr_head_of_nonneg (i : Int) (hi : ¬ i < 0) :
    ∀ c, (pyIntStr i).data.head? = some c → '0' ≤ c ∧ c ≤ '9' := by
  intro c hc
  unfold pyIntStr at hc
  simp only [hi, if_false] at hc
  exact pyNatStr_head_digitRange _ c hc

theorem pyIntStr_head_of_neg (i : Int) (hi : i < 0) :
    (pyIntStr i).data.head? = some '-' := by
  unfold pyIntStr
  simp only [hi, if_true]
  rfl

theorem pyIntStr_injective : Function.Injective pyIntStr := by
  intro i j h
  by_cases hi : i < 0 <;> by_cases hj : j < 0
  · have hd : ("-" ++ pyNatStr i.natAbs).data = ("-" ++ pyNatStr j.natAbs).data := by
      have h' : pyIntStr i = pyIntStr j := h
      unfold pyIntStr at h'
      simp only [hi, hj, if_true] at h'
      exact congrArg String.data h'
    simp only [String.data_append] at hd
    have := pyNatStr_injective (String.ext (List.append_cancel_left hd))
    omega
  · exfalso
    have h1 := pyIntStr_head_of_neg i hi
    rw [h] at h1
    have := (pyIntStr_head_of_nonneg j hj '-' h1).1
    revert this; decide
  · exfalso
    have h1 := pyIntStr_head_of_neg j hj
    rw [← h] at h1
    have := (pyIntStr_head_of_nonneg i hi '-' h1).1
    revert this; decide
  · have h' : pyIntStr i = pyIntStr j := h
    unfold pyIntStr at h'
    simp only [hi, hj, if_false] at h'
    have := pyNatStr_injective h'
    omega

theorem pyIntStr_ne_none_str (i : Int) : pyIntStr i ≠ "None" := by
  intro h
  by_cases hi : i < 0
  · have h1 := pyIntStr_head_of_neg i hi
    rw [h] at h1
    have : (("None" : String).data).head? = some 'N' := rfl
    rw [this] at h1
    exact absurd h1 (by decide)
  · have h1 : (pyIntStr i).data.head? = some 'N' := by
      rw [h]; rfl
    have := (pyIntStr_head_of_nonneg i hi 'N' h1).2
    revert this; decide

theorem pyOptIntStr_injective : Function.Injective pyOptIntStr := by
  intro a b h
  match a, b with
  | none, none => rfl
  | none, some j => exact absurd h.symm (pyIntStr_ne_none_str j)
  | some i, none => exact absurd h (pyIntStr_ne_none_str i)
  | some i, some j => exact congrArg some (pyIntStr_injective h)

/- ### Data model (`models.py`, restricted to the fields the core logic reads)

`area_m2`/`floor_info`/`direction` are carried verbatim; the `confirmed_date`
column (a `strptime` of `articleConfirmYmd`) is not modelled — the raw text is
retained inside `listing_meta`, and no property under study depends on it. -/

/-- The raw `articleNo` value found in an upstream payload: either a value
`int()` converts (carrying the converted integer), or one on which `int()`
raises `TypeError`/`ValueError`. -/
inductive RawArticleNo where
  | intLike (n : Int)
  | malformed
deriving DecidableEq

/-- One upstream article record (the keys `ingest.py` reads; the record as a
whole is also what gets stored as `listing_meta`). -/
structure Article where
  articleNo : Option RawArticleNo
  articleName : Option String
  tradeTypeName : Option String
  dealOrWarrantPrc : Option String
  rentPrc : Option String
  area1 : Option ℚ
  floorInfo : Option String
  direction : Option String
  articleConfirmYmd : Option String
deriving DecidableEq

/-- One page returned by the upstream client; a payload without an
`articleList` key behaves as an empty list (`payload.get("articleList", [])`). -/
structure Payload where
  articleList : List Article
deriving DecidableEq

/-- `models.CrawlRun`. -/
structure CrawlRun where
  id : Nat
  complex_no : Int
  started_at : Int
  completed_at : Option Int
  status : String
  raw_payload : Payload
deriving DecidableEq

/-- `models.ListingSnapshot`. -/
structure ListingSnapshot where
  crawl_run_id : Nat
  complex_no : Int
  article_no : Int
  article_name : Option String
  trade_type_name : Option String
  deal_price_text : Option String
  rent_price_text : Option String
  deal_price_manwon : Option Int
  rent_price_manwon : Option Int
  area_m2 : Option ℚ
  floor_info : Option String
  direction : Option String
  listing_meta : Article
  observed_at : Int
deriving DecidableEq

/-- `models.AlertDispatchLog` (the four columns of the dedupe tuple; the
`payload`/`sent_at` columns play no role in the dispatch logic). -/
structure AlertDispatchLog where
  user_id : Nat
  channel : String
  alert_type : String
  dedupe_key : String
deriving DecidableEq

/-- The relational store as the core sees it. -/
structure DB where
  runs : List CrawlRun
  snapshots : List ListingSnapshot
deriving DecidableEq

/- ### `analytics.py` -/

/-- `analytics.normalize_trade_type_name`: `None`, blank, or (any casing of)
`"ALL"` mean "no trade-type filter". -/
def normalize_trade_type_name (trade_type_name : Option String) : Option String :=
  match trade_type_name with
  | none => none
  | some s =>
    let normalized := pyStrip s
    if normalized = "" then none
    else if pyUpper normalized = "ALL" then none
    else some normalized

/-- `analytics.to_effective_price_manwon`: trade-type-aware price
normalization into one comparable 만원 scalar. -/
def to_effective_price_manwon (trade_type_name : Option String)
    (deal_price_manwon rent_price_manwon : Option Int)
    (monthly_conversion_rate_pct : ℚ) : Option ℚ :=
  if monthly_conversion_rate_pct ≤ 0 then none
  else
    let normalized_trade_type := pyStrip (trade_type_name.getD "")
    if normalized_trade_type = "월세" then
      match deal_price_manwon, rent_price_manwon with
      | some d, some r =>
        some ((d : ℚ) + (r : ℚ) * 12 / (monthly_conversion_rate_pct / 100))
      | _, _ => none
    else
      match deal_price_manwon with
      | some d => some ((d : ℚ))
      | none => none

/-- `statistics.median` as Python computes it (sort; middle element for odd
length, mean of the two middle elements for even length).  The `getD` default
is never reached at the call site, which guards `length ≥ 5`. -/
def pyMedian (l : List ℚ) : ℚ :=
  let sorted := l.mergeSort (fun a b => decide (a ≤ b))
  let n := l.length
  if n % 2 = 1 then sorted.getD (n / 2) 0
  else (sorted.getD (n / 2 - 1) 0 + sorted.getD (n / 2) 0) / 2

/-- Python `round(q, ndigits)` ties-to-even rounding of the integer part. -/
def roundHalfEven (q : ℚ) : ℤ :=
  let f := ⌊q⌋
  if q - f < 1/2 then f
  else if 1/2 < q - f then f + 1
  else if f % 2 = 0 then f else f + 1

/-- Python `round(q, ndigits)` (floats modelled as exact rationals). -/
def pyRound (ndigits : Nat) (q : ℚ) : ℚ :=
  (roundHalfEven (q * 10 ^ ndigits) : ℚ) / 10 ^ ndigits

/-- The SQL trade-type condition `ListingSnapshot.trade_type_name == t`
(applied only when the normalized filter is not `None`); a `NULL` column never
matches. -/
def matchesTradeFilter (filt : Option String) (s : ListingSnapshot) : Bool :=
  match filt with
  | none => true
  | some t => s.trade_type_name == some t

/-- The baseline query of `detect_bargains`: snapshots of the complex observed
within the lookback window (`observed_at >= since`), optionally filtered by
trade type. -/
def baselineSnapshots (db : DB) (complex_no : Int) (since : Int)
    (filt : Option String) : List ListingSnapshot :=
  db.snapshots.filter fun s =>
    s.complex_no == complex_no && decide (since ≤ s.observed_at)
      && matchesTradeFilter filt s

/-- The normalizable effective prices of the baseline rows (the list
comprehension at `analytics.py:175-187`). -/
def baselinePrices (db : DB) (complex_no : Int) (since : Int)
    (filt : Option String) (rate : ℚ) : List ℚ :=
  (baselineSnapshots db complex_no since filt).filterMap fun s =>
    to_effective_price_manwon s.trade_type_name s.deal_price_manwon
      s.rent_price_manwon rate

/-- The latest successful run query: `status == "SUCCESS"`, ordered by
`started_at` descending, limit 1 (on a tie of `started_at` the database order
is unspecified; the fold keeps the earliest-listed row). -/
def latestSuccessRunId (db : DB) (complex_no : Int) : Option Nat :=
  ((db.runs.filter fun r => r.complex_no == complex_no && r.status == "SUCCESS").foldl
    (fun best r =>
      match best with
      | none => some r
      | some b => if b.started_at < r.started_at then some r else some b)
    none).map (·.id)

/-- The candidate query of `detect_bargains`: listings of the given run,
with the same trade-type filter. -/
def runCandidates (db : DB) (runId : Nat) (filt : Option String) :
    List ListingSnapshot :=
  db.snapshots.filter fun s =>
    s.crawl_run_id == runId && matchesTradeFilter filt s

/-- One result dict of `detect_bargains` (the `observed_at` iso string is
modelled as the timestamp itself). -/
structure BargainRow where
  article_no : Int
  article_name : Option String
  trade_type_name : Option String
  deal_price_text : Option String
  deal_price_manwon : Option Int
  rent_price_manwon : Option Int
  effective_price_manwon : ℚ
  monthly_conversion_rate_pct : ℚ
  baseline_median_manwon : ℚ
  discount_rate : ℚ
  observed_at : Int
deriving DecidableEq

/-- The loop body of `detect_bargains` (`analytics.py:212-237`): normalize the
candidate's price, compute its discount against the baseline median `m`, and
keep it iff `discount_rate >= discount_threshold`. -/
def bargainRow (m θ rate : ℚ) (item : ListingSnapshot) : Option BargainRow :=
  match to_effective_price_manwon item.trade_type_name item.deal_price_manwon
      item.rent_price_manwon rate with
  | none => none
  | some p =>
    let discount_rate := (m - p) / m
    if θ ≤ discount_rate then
      some
        { article_no := item.article_no
          article_name := item.article_name
          trade_type_name := item.trade_type_name
          deal_price_text := item.deal_price_text
          deal_price_manwon := item.deal_price_manwon
          rent_price_manwon := item.rent_price_manwon
          effective_price_manwon := pyRound 2 p
          monthly_conversion_rate_pct := rate
          baseline_median_manwon := m
          discount_rate := pyRound 4 discount_rate
          observed_at := item.observed_at }
    else none

/-- `analytics.detect_bargains` (the caller computes
`since = now - lookback_days`; the final `results.sort(key=discount_rate,
reverse=True)` is a stable descending sort on the stored discount rate). -/
def detect_bargains (db : DB) (complex_no : Int) (since : Int)
    (discount_threshold : ℚ) (trade_type_name : Option String) (rate : ℚ) :
    List BargainRow :=
  let filt := normalize_trade_type_name trade_type_name
  let prices := baselinePrices db complex_no since filt rate
  if prices.length < 5 then []
  else
    let baseline_median := pyMedian prices
    match latestSuccessRunId db complex_no with
    | none => []
    | some runId =>
      ((runCandidates db runId filt).filterMap
        (bargainRow baseline_median discount_threshold rate)).mergeSort
        (fun a b => decide (b.discount_rate ≤ a.discount_rate))

/- ### `ingest.py` -/

/-- `ingest._resolve_time_bucket`: the bucket of width `window_hours` hours,
aligned to the start of the UTC day, that contains `now` (minutes since the
epoch).  `now.hour` is `(now mod 1440) / 60`; `now.replace(hour=h, minute=0,
second=0, microsecond=0)` is `dayStart + h*60`.  The Python code divides by
`window_hours` and is only ever called with `window_hours > 0`. -/
def resolve_time_bucket (now : Int) (window_hours : Nat) : Int × Int :=
  let nowHour : Nat := (now.emod 1440).toNat / 60
  let hour : Nat := nowHour / window_hours * window_hours
  let dayStart : Int := now - now.emod 1440
  let bucket_start := dayStart + hour * 60
  (bucket_start, bucket_start + window_hours * 60)

/-- The `ORDER BY completed_at DESC LIMIT 1` of the reuse query as a fold:
keep the row with the later `completed_at`. -/
def reusePick (best : Option CrawlRun) (r : CrawlRun) : Option CrawlRun :=
  match best with
  | none => some r
  | some b =>
    match b.completed_at, r.completed_at with
    | some tb, some tr => if tb < tr then some r else some b
    | _, _ => some b

/-- The `WHERE` clause of the reuse query (`ingest.py:39-50`): a `SUCCESS` run
of the complex whose `completed_at` lies in `[bucket_start, bucket_end)`. -/
def reusePred (complex_no bucket_start bucket_end : Int) (r : CrawlRun) : Bool :=
  r.complex_no == complex_no && r.status == "SUCCESS" &&
    match r.completed_at with
    | some t => decide (bucket_start ≤ t) && decide (t < bucket_end)
    | none => false

/-- The reuse query (`ingest.py:39-50`): the latest-completed `SUCCESS` run of
the complex whose `completed_at` lies in `[bucket_start, bucket_end)`. -/
def reuseCandidate (db : DB) (complex_no : Int) (bucket_start bucket_end : Int) :
    Option CrawlRun :=
  (db.runs.filter (reusePred complex_no bucket_start bucket_end)).foldl
    reusePick none

/-- `select count(*) from listing_snapshots where crawl_run_id = runId`. -/
def countRunListings (db : DB) (runId : Nat) : Nat :=
  (db.snapshots.filter fun s => s.crawl_run_id == runId).length

/-- The run id the database's autoincrement assigns at `db.flush()`. -/
def freshRunId (db : DB) : Nat :=
  db.runs.foldl (fun m r => max m r.id) 0 + 1

/-- `int(article_no)` guarded by the `None` check and the
`TypeError`/`ValueError` handler (`ingest.py:98-104`): `none` means the
article is skipped. -/
def convertArticleNo : Option RawArticleNo → Option Int
  | none => none
  | some (RawArticleNo.intLike n) => some n
  | some RawArticleNo.malformed => none

/-- The per-run dedup loop (`ingest.py:97-107`): `seen` is the
`seen_article_nos` set threaded across all pages; the first occurrence of each
convertible article id is kept. -/
def dedupArticles (seen : List Int) : List Article → List (Int × Article)
  | [] => []
  | a :: rest =>
    match convertArticleNo a.articleNo with
    | none => dedupArticles seen rest
    | some n =>
      if seen.contains n then dedupArticles seen rest
      else (n, a) :: dedupArticles (n :: seen) rest

/-- The `ListingSnapshot(...)` constructor call (`ingest.py:109-124`). -/
def mkListingSnapshot (runId : Nat) (complex_no : Int) (now : Int) (n : Int)
    (a : Article) : ListingSnapshot :=
  { crawl_run_id := runId
    complex_no := complex_no
    article_no := n
    article_name := a.articleName
    trade_type_name := a.tradeTypeName
    deal_price_text := a.dealOrWarrantPrc
    rent_price_text := a.rentPrc
    deal_price_manwon := price_to_manwon a.dealOrWarrantPrc
    rent_price_manwon := price_to_manwon a.rentPrc
    area_m2 := a.area1
    floor_info := a.floorInfo
    direction := a.direction
    listing_meta := a
    observed_at := now }

/-- All snapshot rows one ingestion run persists for the concatenated article
lists of its pages. -/
def snapshotsOfArticles (runId : Nat) (complex_no : Int) (now : Int)
    (articles : List Article) : List ListingSnapshot :=
  (dedupArticles [] articles).map fun p =>
    mkListingSnapshot runId complex_no now p.1 p.2

/-- The upstream client as the coordinator sees it: fetching a page either
returns its payload or raises (`RuntimeError` from
`NaverLandClient._request_json` on HTTP/network/JSON/API errors). -/
abbrev Fetch := Nat → Except String Payload

/-- The page loop for `current_page > page` (`ingest.py:82-95`): each
iteration fetches (an error aborts the whole call), an empty `articleList`
breaks out of the loop, a non-empty one counts as a fetched page.  Returns
(article lists of the pages taken, `pages_fetched` increments, number of
fetch calls made). -/
def laterPages (fetch : Fetch) : Nat → Nat → Except String (List (List Article) × Nat × Nat)
  | _, 0 => Except.ok ([], 0, 0)
  | current, n + 1 =>
    match fetch current with
    | Except.error e => Except.error e
    | Except.ok payload =>
      if payload.articleList.isEmpty then Except.ok ([], 0, 1)
      else
        match laterPages fetch (current + 1) n with
        | Except.error e => Except.error e
        | Except.ok (rest, pf, fc) =>
          Except.ok (payload.articleList :: rest, pf + 1, fc + 1)

/-- The whole page loop, starting from the already-fetched first payload. -/
def pageLists (fetch : Fetch) (page maxPages : Nat) (firstPayload : Payload) :
    Except String (List (List Article) × Nat × Nat) :=
  if firstPayload.articleList.isEmpty then Except.ok ([], 0, 0)
  else
    match laterPages fetch (page + 1) (maxPages - 1) with
    | Except.error e => Except.error e
    | Except.ok (rest, pf, fc) =>
      Except.ok (firstPayload.articleList :: rest, pf + 1, fc)

/-- The dict `ingest_complex_snapshot` returns. -/
structure IngestResult where
  crawl_run_id : Nat
  complex_no : Int
  listing_count : Nat
  pages_fetched : Nat
  reused : Nat
deriving DecidableEq

/-- The fresh-fetch block of `ingest_complex_snapshot` (`ingest.py:66-137`):
fetch the first page (an error aborts), create the run row optimistically,
walk the pages, dedup, and commit run + snapshots together at the end. -/
def ingestFresh (db : DB) (fetch : Fetch) (now : Int) (complex_no : Int)
    (page maxPages : Nat) : Except String (DB × IngestResult × Nat) :=
  match fetch page with
  | Except.error e => Except.error e
  | Except.ok firstPayload =>
    let runId := freshRunId db
    match pageLists fetch page maxPages firstPayload with
    | Except.error e => Except.error e
    | Except.ok (lists, pagesFetched, laterCalls) =>
      let snaps := snapshotsOfArticles runId complex_no now lists.flatten
      let run : CrawlRun :=
        { id := runId
          complex_no := complex_no
          started_at := now
          completed_at := some now
          status := "SUCCESS"
          raw_payload := firstPayload }
      Except.ok
        ({ runs := db.runs ++ [run], snapshots := db.snapshots ++ snaps },
         { crawl_run_id := runId
           complex_no := complex_no
           listing_count := snaps.length
           pages_fetched := pagesFetched
           reused := 0 }, 1 + laterCalls)

/-- `ingest.ingest_complex_snapshot`.  The returned triple is (database after
commit, result dict, number of upstream fetch calls made); an `Except.error`
models the exception propagating with the transaction rolled back — no run row
and no listing rows are committed in that case (the single `db.commit()` sits
after the loop).  `reuse_window_hours` arrives already resolved against the
settings default. -/
def ingest_complex_snapshot (db : DB) (fetch : Fetch) (now : Int)
    (complex_no : Int) (page maxPages : Nat) (reuse_window_hours : Nat) :
    Except String (DB × IngestResult × Nat) :=
  if page < 1 then Except.error "page must be >= 1"
  else if maxPages < 1 then Except.error "max_pages must be >= 1"
  else
    match
      (if 0 < reuse_window_hours then
        reuseCandidate db complex_no
          (resolve_time_bucket now reuse_window_hours).1
          (resolve_time_bucket now reuse_window_hours).2
      else none) with
    | some run =>
      Except.ok (db,
        { crawl_run_id := run.id
          complex_no := complex_no
          listing_count := countRunListings db run.id
          pages_fetched := 0
          reused := 1 }, 0)
    | none => ingestFresh db fetch now complex_no page maxPages

/- ### `alerts.py` (bargain alert dispatch) -/

/-- `models.UserNotificationSetting` (the columns the dispatch path reads). -/
structure UserNotificationSetting where
  email_enabled : Bool
  email_address : Option String
  telegram_enabled : Bool
  telegram_chat_id : Option String
  bargain_alert_enabled : Bool
deriving DecidableEq

/-- Python truthiness of an optional string column (`None` and `""` falsy). -/
def pyTruthyStr : Option String → Bool
  | none => false
  | some s => !s.data.isEmpty

/-- One bargain candidate dict as dispatch reads it (`item.get` of the three
keys feeding the dedupe key; the remaining keys only feed the rendered
message text, which is not modelled). -/
structure BargainItem where
  complex_no : Option Int
  article_no : Option Int
  deal_price_manwon : Option Int
deriving DecidableEq

/-- `alerts._bargain_dedupe_key`:
`"bargain:{complex_no}:{article_no}:{deal_price_manwon}"`. -/
def bargain_dedupe_key (item : BargainItem) : String :=
  "bargain:" ++ pyOptIntStr item.complex_no ++ ":" ++ pyOptIntStr item.article_no
    ++ ":" ++ pyOptIntStr item.deal_price_manwon

/-- Whether a dispatch log record for this (user, channel, "bargain", key)
tuple exists. -/
def loggedBargain (logs : List AlertDispatchLog) (user_id : Nat) (channel : String)
    (key : String) : Bool :=
  logs.any fun r =>
    r.user_id == user_id && r.channel == channel && r.alert_type == "bargain"
      && r.dedupe_key == key

/-- `alerts._filter_unsent_items`: drop the items whose dedupe key already has
a dispatch log record for this (user, channel, "bargain") tuple; returns the
remaining items and their keys. -/
def filter_unsent_items (logs : List AlertDispatchLog) (user_id : Nat)
    (channel : String) (items : List BargainItem) :
    List BargainItem × List String :=
  let dedupe_pairs := items.map fun i => (bargain_dedupe_key i, i)
  let keys := dedupe_pairs.map Prod.fst
  if keys.isEmpty then ([], [])
  else
    let existing_keys :=
      (logs.filter fun r =>
        r.user_id == user_id && r.channel == channel && r.alert_type == "bargain"
          && keys.contains r.dedupe_key).map (·.dedupe_key)
    (dedupe_pairs.filterMap fun p =>
        if existing_keys.contains p.1 then none else some p.2,
     dedupe_pairs.filterMap fun p =>
        if existing_keys.contains p.1 then none else some p.1)

/-- The counters `dispatch_user_bargain_alerts` returns. -/
structure DispatchResult where
  email_sent : Nat
  telegram_sent : Nat
  email_reason : String
  telegram_reason : String
deriving DecidableEq

/-- One channel block of `alerts.dispatch_user_bargain_alerts`
(`alerts.py:384-407` for email, `alerts.py:409-431` for telegram — the two
blocks are line-for-line the same up to the channel name, transport and
destination column, so they are embedded once, parameterized).  The transport
is modelled by its outcome pair `(delivered, reason)` — the collaborators
never raise, they only report.  Returns (dispatch log after the block, number
sent, reason string). -/
def dispatchChannel (logs : List AlertDispatchLog) (user_id : Nat)
    (channel : String) (enabled : Bool) (dest : Option String)
    (items : List BargainItem) (send : Bool × String) :
    List AlertDispatchLog × Nat × String :=
  if enabled && pyTruthyStr dest then
    let filtered := filter_unsent_items logs user_id channel items
    if !filtered.1.isEmpty then
      if send.1 then
        (logs ++ filtered.2.map fun k =>
          { user_id := user_id, channel := channel, alert_type := "bargain",
            dedupe_key := k },
         filtered.1.length, send.2)
      else (logs, 0, send.2)
    else (logs, 0, "")
  else (logs, 0, "")

/-- `alerts.dispatch_user_bargain_alerts`: no-op when there are no items or
the bargain toggle is off; otherwise the email block runs first, then the
telegram block over the session state the email block left (records appended
only for a successful send). -/
def dispatch_user_bargain_alerts (logs : List AlertDispatchLog) (user_id : Nat)
    (setting : UserNotificationSetting) (items : List BargainItem)
    (emailSend telegramSend : Bool × String) :
    List AlertDispatchLog × DispatchResult :=
  if items.isEmpty || !setting.bargain_alert_enabled then
    (logs, { email_sent := 0, telegram_sent := 0, email_reason := "", telegram_reason := "" })
  else
    let emailStep := dispatchChannel logs user_id "email" setting.email_enabled
      setting.email_address items emailSend
    let telegramStep := dispatchChannel emailStep.1 user_id "telegram"
      setting.telegram_enabled setting.telegram_chat_id items telegramSend
    (telegramStep.1,
     { email_sent := emailStep.2.1
       telegram_sent := telegramStep.2.1
       email_reason := emailStep.2.2
       telegram_reason := telegramStep.2.2 })

/- ### Claim theorems -/

/-- C1: for a "monthly-rent" (월세) call of the price normalizer, if both the
deposit and the monthly rent are present and the conversion rate is positive
the result is exactly `deposit + rent*12 / (rate/100)`; if either price is
absent, or the rate is zero or negative, the result is `none`.  The result
lives in `Option ℚ`, so no division by zero, crash, or infinity can occur. -/
theorem monthly_rent_normalization (tt : String) (htt : pyStrip tt = "월세")
    (deal rent : Option Int) (rate : ℚ) :
    (0 < rate → ∀ d r, deal = some d → rent = some r →
      to_effective_price_manwon (some tt) deal rent rate
        = some ((d : ℚ) + (r : ℚ) * 12 / (rate / 100))) ∧
    (0 < rate → deal = none ∨ rent = none →
      to_effective_price_manwon (some tt) deal rent rate = none) ∧
    (rate ≤ 0 → to_effective_price_manwon (some tt) deal rent rate = none) := by
  unfold to_effective_price_manwon
  refine ⟨?_, ?_, ?_⟩
  · intro hrate d r hd hr
    subst hd; subst hr
    rw [if_neg (not_le.mpr hrate)]
    simp only [Option.getD_some, htt, if_true]
  · intro hrate habs
    rw [if_neg (not_le.mpr hrate)]
    simp only [Option.getD_some, htt, if_true]
    rcases habs with h | h
    · subst h; cases rent <;> rfl
    · subst h; cases deal <;> rfl
  · intro hrate
    rw [if_pos hrate]

/-- C1 witness: the repository's own test vector — 월세 deposit 30000, rent
150, rate 5.1% normalizes to `30000 + 150*12/(5.1/100)`. -/
theorem monthly_rent_normalization_witness :
    0 < (51 : ℚ) / 10 ∧
    to_effective_price_manwon (some "월세") (some 30000) (some 150) ((51 : ℚ) / 10)
      = some (((30000 : Int) : ℚ) + ((150 : Int) : ℚ) * 12 / (((51 : ℚ) / 10) / 100)) :=
  ⟨by norm_num,
   (monthly_rent_normalization "월세" (by decide) (some 30000) (some 150)
      ((51 : ℚ) / 10)).1 (by norm_num) 30000 150 rfl rfl⟩

/-- C2 counterexample: the claim says a "sale" (매매) listing with
`deal=98000` has effective price 98000 for *every* rate, but the code checks
`monthly_conversion_rate_pct <= 0` before the trade-type branch
(`analytics.py:29`), so at rate 0 the normalizer returns `none`, not 98000. -/
theorem sale_rate_zero_counterexample :
    to_effective_price_manwon (some "매매") (some 98000) none 0 = none ∧
    to_effective_price_manwon (some "매매") (some 98000) none 0
      ≠ some ((98000 : Int) : ℚ) := by
  constructor <;> decide

/-- C2 amended: for every trade type other than 월세, *whenever the
conversion rate is positive*, the normalizer returns `deal_price` verbatim if
present and `none` if absent; when the rate is zero or negative the result is
`none` regardless of trade type (the rate guard precedes the trade-type
branch). -/
theorem other_trade_types_verbatim (tt : Option String)
    (htt : pyStrip (tt.getD "") ≠ "월세") (deal rent : Option Int) (rate : ℚ) :
    (0 < rate → to_effective_price_manwon tt deal rent rate
        = deal.map (fun d => ((d : Int) : ℚ))) ∧
    (rate ≤ 0 → to_effective_price_manwon tt deal rent rate = none) := by
  unfold to_effective_price_manwon
  constructor
  · intro hrate
    rw [if_neg (not_le.mpr hrate)]
    simp only [if_neg htt]
    cases deal <;> rfl
  · intro hrate
    rw [if_pos hrate]

/-- C2 amended witness: "sale" with deal 98000 at the positive rate 5.1%
yields exactly 98000. -/
theorem other_trade_types_verbatim_witness :
    pyStrip ((some "매매" : Option String).getD "") ≠ "월세" ∧
    to_effective_price_manwon (some "매매") (some 98000) none ((51 : ℚ) / 10)
      = some ((98000 : Int) : ℚ) :=
  ⟨by decide,
   (other_trade_types_verbatim (some "매매") (by decide) (some 98000) none
      ((51 : ℚ) / 10)).1 (by norm_num)⟩

/-- C10: the baseline set of `detect_bargains` excludes nothing by run — any
candidate listing of the latest successful run whose complex matches and
whose observation time lies in the lookback window contributes its own
effective price to the baseline from which its discount is computed. -/
theorem candidates_in_own_baseline (db : DB) (c since : Int)
    (tt : Option String) (rate : ℚ) (runId : Nat)
    (_hrun : latestSuccessRunId db c = some runId) :
    ∀ s ∈ runCandidates db runId (normalize_trade_type_name tt),
      s.complex_no = c → since ≤ s.observed_at →
      ∀ p, to_effective_price_manwon s.trade_type_name s.deal_price_manwon
          s.rent_price_manwon rate = some p →
        p ∈ baselinePrices db c since (normalize_trade_type_name tt) rate := by
  intro s hs hc hobs p hp
  unfold runCandidates at hs
  have hmem := List.mem_filter.mp hs
  have hfilt : matchesTradeFilter (normalize_trade_type_name tt) s = true := by
    have := hmem.2
    simp only [Bool.and_eq_true] at this
    exact this.2
  unfold baselinePrices
  apply List.mem_filterMap.mpr
  refine ⟨s, ?_, hp⟩
  unfold baselineSnapshots
  apply List.mem_filter.mpr
  refine ⟨hmem.1, ?_⟩
  simp only [Bool.and_eq_true, beq_iff_eq, decide_eq_true_eq]
  exact ⟨⟨hc, hobs⟩, hfilt⟩

/-- An article record with all upstream keys absent (payload filler for
hand-built database states). -/
def blankArticle : Article :=
  { articleNo := none, articleName := none, tradeTypeName := none,
    dealOrWarrantPrc := none, rentPrc := none, area1 := none,
    floorInfo := none, direction := none, articleConfirmYmd := none }

/-- A hand-built 매매 snapshot row for concrete database states. -/
def exSnap (runId : Nat) (no deal obs : Int) : ListingSnapshot :=
  { crawl_run_id := runId, complex_no := 7, article_no := no,
    article_name := none, trade_type_name := some "매매",
    deal_price_text := none, rent_price_text := none,
    deal_price_manwon := some deal, rent_price_manwon := none,
    area_m2 := none, floor_info := none, direction := none,
    listing_meta := blankArticle, observed_at := obs }

/-- C10 witness database: run 2 is the latest successful run for complex 7
and its snapshot (observed inside the window) is also a baseline row. -/
def exC10DB : DB :=
  { runs := [⟨1, 7, 10, some 10, "SUCCESS", ⟨[]⟩⟩,
             ⟨2, 7, 20, some 20, "SUCCESS", ⟨[]⟩⟩],
    snapshots := [exSnap 2 5 80 20, exSnap 1 1 100 10, exSnap 1 2 100 10,
                  exSnap 1 3 100 10, exSnap 1 4 100 10] }

/-- C10 witness: in `exC10DB` the candidate snapshot of latest run 2 has its
own effective price (80) inside the baseline price list. -/
theorem candidates_in_own_baseline_witness :
    latestSuccessRunId exC10DB 7 = some 2 ∧
    ((80 : Int) : ℚ) ∈ baselinePrices exC10DB 7 0 (normalize_trade_type_name none) 5 :=
  ⟨by decide,
   candidates_in_own_baseline exC10DB 7 0 none 5 2 (by decide)
     (exSnap 2 5 80 20) (by decide) (by decide) (by decide)
     ((80 : Int) : ℚ) (by decide)⟩

/-- Unfolding of `detect_bargains` on the main code path (enough baseline
prices, a latest successful run present). -/
theorem detect_bargains_main_path (db : DB) (c since : Int) (θ : ℚ)
    (tt : Option String) (rate : ℚ) (runId : Nat)
    (h5 : ¬ (baselinePrices db c since (normalize_trade_type_name tt) rate).length < 5)
    (hrun : latestSuccessRunId db c = some runId) :
    detect_bargains db c since θ tt rate =
      ((runCandidates db runId (normalize_trade_type_name tt)).filterMap
        (bargainRow
          (pyMedian (baselinePrices db c since (normalize_trade_type_name tt) rate))
          θ rate)).mergeSort
        (fun a b => decide (b.discount_rate ≤ a.discount_rate)) := by
  unfold detect_bargains
  rw [if_neg h5, hrun]

/-- Gate branch of `detect_bargains`: fewer than 5 baseline prices. -/
theorem detect_bargains_gate (db : DB) (c since : Int) (θ : ℚ)
    (tt : Option String) (rate : ℚ)
    (h5 : (baselinePrices db c since (normalize_trade_type_name tt) rate).length < 5) :
    detect_bargains db c since θ tt rate = [] := by
  unfold detect_bargains
  rw [if_pos h5]

/-- Evaluation of the `detect_bargains` loop body when the candidate's price
normalizes and its discount clears the threshold. -/
theorem bargainRow_some (m θ rate : ℚ) (item : ListingSnapshot) (p : ℚ)
    (hp : to_effective_price_manwon item.trade_type_name item.deal_price_manwon
        item.rent_price_manwon rate = some p)
    (hθ : θ ≤ (m - p) / m) :
    bargainRow m θ rate item = some
      { article_no := item.article_no, article_name := item.article_name,
        trade_type_name := item.trade_type_name,
        deal_price_text := item.deal_price_text,
        deal_price_manwon := item.deal_price_manwon,
        rent_price_manwon := item.rent_price_manwon,
        effective_price_manwon := pyRound 2 p,
        monthly_conversion_rate_pct := rate,
        baseline_median_manwon := m,
        discount_rate := pyRound 4 ((m - p) / m),
        observed_at := item.observed_at } := by
  unfold bargainRow
  rw [hp]
  simp only [hθ, if_true]

/-- Evaluation of the loop body when the discount misses the threshold. -/
theorem bargainRow_none (m θ rate : ℚ) (item : ListingSnapshot) (p : ℚ)
    (hp : to_effective_price_manwon item.trade_type_name item.deal_price_manwon
        item.rent_price_manwon rate = some p)
    (hθ : ¬ θ ≤ (m - p) / m) :
    bargainRow m θ rate item = none := by
  unfold bargainRow
  rw [hp]
  simp only [hθ, if_false]

/-- Evaluation of the loop body when the candidate's price does not
normalize. -/
theorem bargainRow_skip (m θ rate : ℚ) (item : ListingSnapshot)
    (hp : to_effective_price_manwon item.trade_type_name item.deal_price_manwon
        item.rent_price_manwon rate = none) :
    bargainRow m θ rate item = none := by
  unfold bargainRow
  rw [hp]

/-- C3 example database: exactly 5 normalizable baseline prices for complex 7
(`[80,100,100,100,100]`, median 100), and one candidate in the latest run at
80 — an 8% threshold flags it. -/
def exC3DB : DB :=
  { runs := [⟨1, 7, 10, some 10, "SUCCESS", ⟨[]⟩⟩,
             ⟨2, 7, 20, some 20, "SUCCESS", ⟨[]⟩⟩],
    snapshots := [exSnap 2 5 80 20, exSnap 1 1 100 10, exSnap 1 2 100 10,
                  exSnap 1 3 100 10, exSnap 1 4 100 10] }

/-- C3: with fewer than 5 normalizable baseline prices `detect_bargains`
returns the empty list (a defined result, not an error); with exactly 5 it
computes the median baseline and can return matches (the concrete database
`exC3DB` has exactly 5 baseline prices and a non-empty result). -/
theorem min_sample_gate (db : DB) (c since : Int) (θ : ℚ) (tt : Option String)
    (rate : ℚ) :
    ((baselinePrices db c since (normalize_trade_type_name tt) rate).length < 5 →
      detect_bargains db c since θ tt rate = []) ∧
    ((baselinePrices exC3DB 7 0 (normalize_trade_type_name none) 5).length = 5 ∧
      detect_bargains exC3DB 7 0 (8 / 100) none 5 ≠ []) := by
  constructor
  · exact detect_bargains_gate db c since θ tt rate
  constructor
  · decide
  · have hbl : baselinePrices exC3DB 7 0 (normalize_trade_type_name none) 5
        = [((80 : Int) : ℚ), ((100 : Int) : ℚ), ((100 : Int) : ℚ),
           ((100 : Int) : ℚ), ((100 : Int) : ℚ)] := by decide
    have hmed : pyMedian (baselinePrices exC3DB 7 0 (normalize_trade_type_name none) 5)
        = ((100 : Int) : ℚ) := by
      unfold pyMedian
      rw [hbl, List.mergeSort_of_sorted (by decide)]
      decide
    have hrow := bargainRow_some
      (pyMedian (baselinePrices exC3DB 7 0 (normalize_trade_type_name none) 5))
      (8 / 100) 5 (exSnap 2 5 80 20) ((80 : Int) : ℚ) (by decide)
      (by rw [hmed]; push_cast; norm_num)
    rw [detect_bargains_main_path exC3DB 7 0 (8 / 100) none 5 2 (by decide) (by decide)]
    intro hnil
    have hcand : exSnap 2 5 80 20 ∈ runCandidates exC3DB 2 (normalize_trade_type_name none) := by
      decide
    have hmem := List.mem_filterMap.mpr ⟨exSnap 2 5 80 20, hcand, hrow⟩
    have hperm := List.mergeSort_perm
      ((runCandidates exC3DB 2 (normalize_trade_type_name none)).filterMap
        (bargainRow
          (pyMedian (baselinePrices exC3DB 7 0 (normalize_trade_type_name none) 5))
          (8 / 100) 5))
      (fun a b => decide (b.discount_rate ≤ a.discount_rate))
    rw [hnil] at hperm
    rw [List.Perm.eq_nil hperm.symm] at hmem
    exact absurd hmem (List.not_mem_nil _)

/-- C3 witness: an empty database has 0 baseline prices, so `detect_bargains`
returns the defined empty result. -/
theorem min_sample_gate_witness :
    detect_bargains ⟨[], []⟩ 7 0 (8 / 100) none 5 = [] :=
  (min_sample_gate ⟨[], []⟩ 7 0 (8 / 100) none 5).1 (by decide)

/-- C4: on the main path of `detect_bargains` (baseline of at least 5 prices
with median `M`, latest successful run present), a candidate with normalized
price `p` is flagged iff `θ ≤ (M - p)/M` — inclusive boundary: a candidate
priced exactly `M*(1-θ)` is flagged and one priced one 만원 above it is not —
the returned list is exactly the flagged candidates sorted by stored discount
rate descending, and every returned row carries the baseline median, its own
(rounded) effective price and the conversion rate used. -/
theorem discount_threshold_flagging (db : DB) (c since : Int) (θ : ℚ)
    (tt : Option String) (rate : ℚ) (runId : Nat) (filt : Option String) (M : ℚ)
    (hfilt : filt = normalize_trade_type_name tt)
    (hM : M = pyMedian (baselinePrices db c since filt rate))
    (h5 : 5 ≤ (baselinePrices db c since filt rate).length)
    (hrun : latestSuccessRunId db c = some runId) :
    (∀ row, row ∈ detect_bargains db c since θ tt rate ↔
        ∃ item ∈ runCandidates db runId filt, bargainRow M θ rate item = some row) ∧
    (∀ item : ListingSnapshot, ∀ p : ℚ,
        to_effective_price_manwon item.trade_type_name item.deal_price_manwon
          item.rent_price_manwon rate = some p →
        ((bargainRow M θ rate item).isSome ↔ θ ≤ (M - p) / M)) ∧
    (0 < M →
      (∀ item : ListingSnapshot,
        to_effective_price_manwon item.trade_type_name item.deal_price_manwon
          item.rent_price_manwon rate = some (M * (1 - θ)) →
        (bargainRow M θ rate item).isSome) ∧
      (∀ item : ListingSnapshot,
        to_effective_price_manwon item.trade_type_name item.deal_price_manwon
          item.rent_price_manwon rate = some (M * (1 - θ) + 1) →
        bargainRow M θ rate item = none)) ∧
    (detect_bargains db c since θ tt rate).Pairwise
      (fun a b => b.discount_rate ≤ a.discount_rate) ∧
    (∀ row ∈ detect_bargains db c since θ tt rate,
        row.baseline_median_manwon = M ∧ row.monthly_conversion_rate_pct = rate ∧
        ∃ item ∈ runCandidates db runId filt, ∃ p,
          to_effective_price_manwon item.trade_type_name item.deal_price_manwon
            item.rent_price_manwon rate = some p ∧
          row.effective_price_manwon = pyRound 2 p ∧
          row.discount_rate = pyRound 4 ((M - p) / M)) := by
  subst hfilt
  have hdet := detect_bargains_main_path db c since θ tt rate runId (by omega) hrun
  rw [← hM] at hdet
  refine ⟨?_, ?_, ?_, ?_, ?_⟩
  · intro row
    rw [hdet, List.mem_mergeSort, List.mem_filterMap]
  · intro item p hp
    by_cases hθ : θ ≤ (M - p) / M
    · rw [bargainRow_some M θ rate item p hp hθ]
      simp [hθ]
    · rw [bargainRow_none M θ rate item p hp hθ]
      simp [hθ]
  · intro hMpos
    have hM0 : M ≠ 0 := ne_of_gt hMpos
    constructor
    · intro item hp
      have hcond : θ ≤ (M - M * (1 - θ)) / M := by
        have heq : (M - M * (1 - θ)) / M = θ := by
          field_simp
          ring
        rw [heq]
      rw [bargainRow_some M θ rate item _ hp hcond]
      rfl
    · intro item hp
      have hcond : ¬ θ ≤ (M - (M * (1 - θ) + 1)) / M := by
        have heq : (M - (M * (1 - θ) + 1)) / M = θ - 1 / M := by
          field_simp
          ring
        rw [heq]
        have hpos : 0 < 1 / M := by positivity
        linarith
      exact bargainRow_none M θ rate item _ hp hcond
  · rw [hdet]
    refine List.Pairwise.imp ?_ (List.sorted_mergeSort ?_ ?_ _)
    · intro a b h
      exact of_decide_eq_true h
    · intro a b d hab hbd
      simp only [decide_eq_true_eq] at *
      exact le_trans hbd hab
    · intro a b
      simp only [Bool.or_eq_true, decide_eq_true_eq]
      exact le_total _ _
  · intro row hrow'
    rw [hdet, List.mem_mergeSort] at hrow'
    obtain ⟨item, hitem, heq⟩ := List.mem_filterMap.mp hrow'
    cases hp : to_effective_price_manwon item.trade_type_name
        item.deal_price_manwon item.rent_price_manwon rate with
    | none =>
      rw [bargainRow_skip M θ rate item hp] at heq
      exact absurd heq (by simp)
    | some p =>
      by_cases hθ : θ ≤ (M - p) / M
      · rw [bargainRow_some M θ rate item p hp hθ] at heq
        have hre := Option.some_inj.mp heq
        subst hre
        exact ⟨rfl, rfl, item, hitem, p, hp, rfl, rfl⟩
      · rw [bargainRow_none M θ rate item p hp hθ] at heq
        exact absurd heq (by simp)


/- ### Ingestion lemmas -/

theorem ingest_reuse_hit (db : DB) (fetch : Fetch) (now c : Int)
    (page maxPages w : Nat) (run : CrawlRun)
    (hp : ¬ page < 1) (hmp : ¬ maxPages < 1) (hw : 0 < w)
    (hhit : reuseCandidate db c (resolve_time_bucket now w).1
      (resolve_time_bucket now w).2 = some run) :
    ingest_complex_snapshot db fetch now c page maxPages w =
      Except.ok (db,
        { crawl_run_id := run.id, complex_no := c,
          listing_count := countRunListings db run.id,
          pages_fetched := 0, reused := 1 }, 0) := by
  unfold ingest_complex_snapshot
  rw [if_neg hp, if_neg hmp, if_pos hw, hhit]

theorem ingest_reuse_miss (db : DB) (fetch : Fetch) (now c : Int)
    (page maxPages w : Nat)
    (hp : ¬ page < 1) (hmp : ¬ maxPages < 1) (hw : 0 < w)
    (hmiss : reuseCandidate db c (resolve_time_bucket now w).1
      (resolve_time_bucket now w).2 = none) :
    ingest_complex_snapshot db fetch now c page maxPages w =
      ingestFresh db fetch now c page maxPages := by
  unfold ingest_complex_snapshot
  rw [if_neg hp, if_neg hmp, if_pos hw, hmiss]

theorem ingest_no_window (db : DB) (fetch : Fetch) (now c : Int)
    (page maxPages : Nat) (hp : ¬ page < 1) (hmp : ¬ maxPages < 1) :
    ingest_complex_snapshot db fetch now c page maxPages 0 =
      ingestFresh db fetch now c page maxPages := by
  unfold ingest_complex_snapshot
  rw [if_neg hp, if_neg hmp, if_neg (by omega : ¬ (0 : Nat) < 0)]

theorem ingestFresh_first_error (db : DB) (fetch : Fetch) (now c : Int)
    (page maxPages : Nat) (e : String) (hf : fetch page = Except.error e) :
    ingestFresh db fetch now c page maxPages = Except.error e := by
  unfold ingestFresh
  rw [hf]

theorem ingestFresh_pages_error (db : DB) (fetch : Fetch) (now c : Int)
    (page maxPages : Nat) (fp : Payload) (e : String)
    (hf : fetch page = Except.ok fp)
    (hpl : pageLists fetch page maxPages fp = Except.error e) :
    ingestFresh db fetch now c page maxPages = Except.error e := by
  unfold ingestFresh
  simp only [hf, hpl]

theorem ingestFresh_ok (db : DB) (fetch : Fetch) (now c : Int)
    (page maxPages : Nat) (fp : Payload) (lists : List (List Article))
    (pf fcs : Nat)
    (hf : fetch page = Except.ok fp)
    (hpl : pageLists fetch page maxPages fp = Except.ok (lists, pf, fcs)) :
    ingestFresh db fetch now c page maxPages =
      Except.ok
        ({ runs := db.runs ++
            [{ id := freshRunId db, complex_no := c, started_at := now,
               completed_at := some now, status := "SUCCESS",
               raw_payload := fp }],
           snapshots := db.snapshots ++
            snapshotsOfArticles (freshRunId db) c now lists.flatten },
         { crawl_run_id := freshRunId db, complex_no := c,
           listing_count := (snapshotsOfArticles (freshRunId db) c now
             lists.flatten).length,
           pages_fetched := pf, reused := 0 }, 1 + fcs) := by
  unfold ingestFresh
  simp only [hf, hpl]

/-- Every successful result of `ingestFresh` has the fully-committed shape:
one completed `SUCCESS` run row appended, together with exactly its deduped
snapshot rows — nothing else, and nothing partial. -/
theorem ingestFresh_ok_shape (db : DB) (fetch : Fetch) (now c : Int)
    (page maxPages : Nat) (db' : DB) (res : IngestResult) (fc : Nat)
    (h : ingestFresh db fetch now c page maxPages = Except.ok (db', res, fc)) :
    ∃ fp lists pf fcs, fetch page = Except.ok fp ∧
      pageLists fetch page maxPages fp = Except.ok (lists, pf, fcs) ∧
      db' = { runs := db.runs ++
                [{ id := freshRunId db, complex_no := c, started_at := now,
                   completed_at := some now, status := "SUCCESS",
                   raw_payload := fp }],
              snapshots := db.snapshots ++
                snapshotsOfArticles (freshRunId db) c now lists.flatten } ∧
      res = { crawl_run_id := freshRunId db, complex_no := c,
              listing_count := (snapshotsOfArticles (freshRunId db) c now
                lists.flatten).length,
              pages_fetched := pf, reused := 0 } ∧
      fc = 1 + fcs := by
  rcases hf : fetch page with e | fp
  · rw [ingestFresh_first_error db fetch now c page maxPages e hf] at h
    cases h
  · rcases hpl : pageLists fetch page maxPages fp with e | ⟨lists, pf, fcs⟩
    · rw [ingestFresh_pages_error db fetch now c page maxPages fp e hf hpl] at h
      cases h
    · rw [ingestFresh_ok db fetch now c page maxPages fp lists pf fcs hf hpl] at h
      simp only [Except.ok.injEq, Prod.mk.injEq] at h
      exact ⟨fp, lists, pf, fcs, rfl, hpl, h.1.symm, h.2.1.symm, h.2.2.symm⟩

theorem reusePick_isSome (best : Option CrawlRun) (r : CrawlRun) :
    (reusePick best r).isSome = true := by
  rcases best with _ | b
  · rfl
  · rcases hb : b.completed_at with _ | tb <;> rcases hr : r.completed_at with _ | tr <;>
      simp [reusePick, hb, hr]
    split <;> rfl

theorem reuseFold_isSome_of_acc (l : List CrawlRun) :
    ∀ acc : Option CrawlRun, acc.isSome = true →
      (l.foldl reusePick acc).isSome = true := by
  induction l with
  | nil => intro acc h; exact h
  | cons a l ih =>
    intro acc _h
    rw [List.foldl_cons]
    exact ih _ (reusePick_isSome acc a)

/-- The fold inside `reuseCandidate` yields a row iff its input list is
non-empty. -/
theorem reuseFold_isSome (l : List CrawlRun) :
    (l.foldl reusePick none).isSome = true ↔ l ≠ [] := by
  cases l with
  | nil => simp
  | cons a l =>
    constructor
    · intro _h
      exact List.cons_ne_nil a l
    · intro _h
      rw [List.foldl_cons]
      exact reuseFold_isSome_of_acc l _ (reusePick_isSome none a)

theorem reusePick_cases (best : Option CrawlRun) (r : CrawlRun) :
    reusePick best r = best ∨ reusePick best r = some r := by
  rcases best with _ | b
  · exact Or.inr rfl
  · rcases hb : b.completed_at with _ | tb <;> rcases hr : r.completed_at with _ | tr <;>
      simp [reusePick, hb, hr]
    by_cases hlt : tb < tr <;> simp [hlt]

/-- The fold inside `reuseCandidate` only returns the accumulator or a list
element. -/
theorem reuseFold_mem (l : List CrawlRun) :
    ∀ (acc : Option CrawlRun) (r : CrawlRun),
      l.foldl reusePick acc = some r → acc = some r ∨ r ∈ l := by
  induction l with
  | nil => intro acc r h; exact Or.inl h
  | cons a l ih =>
    intro acc r h
    rw [List.foldl_cons] at h
    rcases ih _ r h with hacc | hmem
    · rcases reusePick_cases acc a with hc | hc
      · rw [hc] at hacc
        exact Or.inl hacc
      · rw [hc] at hacc
        cases Option.some_inj.mp hacc
        exact Or.inr (List.mem_cons_self _ _)
    · exact Or.inr (List.mem_cons_of_mem a hmem)

/-- The filter predicate of the reuse query, in propositional form. -/
theorem reusePred_iff (c bs be : Int) (r : CrawlRun) :
    reusePred c bs be r = true ↔
      (r.complex_no = c ∧ r.status = "SUCCESS" ∧
        ∃ t, r.completed_at = some t ∧ bs ≤ t ∧ t < be) := by
  unfold reusePred
  cases ht : r.completed_at with
  | none => simp [ht]
  | some t =>
    simp only [Bool.and_eq_true, beq_iff_eq, decide_eq_true_eq,
      Option.some.injEq]
    constructor
    · rintro ⟨⟨h1, h2⟩, h3, h4⟩
      exact ⟨h1, h2, t, rfl, h3, h4⟩
    · rintro ⟨h1, h2, t', ht', h3, h4⟩
      cases ht'
      exact ⟨⟨h1, h2⟩, h3, h4⟩

/-- `reuseCandidate` finds a row iff a successful run of the complex
completed inside the bucket exists. -/
theorem reuseCandidate_isSome_iff (db : DB) (c bs be : Int) :
    (reuseCandidate db c bs be).isSome = true ↔
      ∃ r ∈ db.runs, r.complex_no = c ∧ r.status = "SUCCESS" ∧
        ∃ t, r.completed_at = some t ∧ bs ≤ t ∧ t < be := by
  unfold reuseCandidate
  rw [reuseFold_isSome]
  constructor
  · intro h
    rcases List.exists_mem_of_ne_nil _ h with ⟨r, hr⟩
    have hmem := List.mem_filter.mp hr
    exact ⟨r, hmem.1, (reusePred_iff c bs be r).mp hmem.2⟩
  · rintro ⟨r, hr, hprops⟩ hnil
    have : r ∈ List.filter (reusePred c bs be) db.runs :=
      List.mem_filter.mpr ⟨hr, (reusePred_iff c bs be r).mpr hprops⟩
    rw [hnil] at this
    exact absurd this (List.not_mem_nil r)

/-- Any row `reuseCandidate` returns is a successful run of the complex that
completed inside the bucket. -/
theorem reuseCandidate_spec (db : DB) (c bs be : Int) (run : CrawlRun)
    (h : reuseCandidate db c bs be = some run) :
    run ∈ db.runs ∧ run.complex_no = c ∧ run.status = "SUCCESS" ∧
      ∃ t, run.completed_at = some t ∧ bs ≤ t ∧ t < be := by
  unfold reuseCandidate at h
  rcases reuseFold_mem _ _ _ h with hacc | hmem
  · cases hacc
  · have hmem' := List.mem_filter.mp hmem
    exact ⟨hmem'.1, (reusePred_iff c bs be run).mp hmem'.2⟩

/-- C5: the reuse policy.  With `reuse_window_hours = w > 0`, the reuse lookup
succeeds exactly when a successful run of the complex completed inside the
current bucket `resolve_time_bucket now w` (aligned to the start of the UTC
day); on a hit, ingestion returns that run's identity and listing count with
`reused = 1` and makes zero upstream fetch calls, leaving the database
untouched; on a miss it behaves exactly like the `w = 0` call.  With `w = 0`
reuse is disabled: every successful call is a fresh one (`reused = 0`) with at
least one upstream fetch. -/
theorem reuse_window_bucketing (db : DB) (fetch : Fetch) (now c : Int)
    (page maxPages w : Nat) (hp : 1 ≤ page) (hmp : 1 ≤ maxPages) :
    (0 < w →
      ((reuseCandidate db c (resolve_time_bucket now w).1
          (resolve_time_bucket now w).2).isSome = true ↔
        ∃ r ∈ db.runs, r.complex_no = c ∧ r.status = "SUCCESS" ∧
          ∃ t, r.completed_at = some t ∧ (resolve_time_bucket now w).1 ≤ t ∧
            t < (resolve_time_bucket now w).2)) ∧
    (0 < w → ∀ run, reuseCandidate db c (resolve_time_bucket now w).1
        (resolve_time_bucket now w).2 = some run →
      ingest_complex_snapshot db fetch now c page maxPages w =
        Except.ok (db,
          { crawl_run_id := run.id, complex_no := c,
            listing_count := countRunListings db run.id,
            pages_fetched := 0, reused := 1 }, 0)) ∧
    (0 < w → reuseCandidate db c (resolve_time_bucket now w).1
        (resolve_time_bucket now w).2 = none →
      ingest_complex_snapshot db fetch now c page maxPages w =
        ingest_complex_snapshot db fetch now c page maxPages 0) ∧
    (∀ db' res fc,
      ingest_complex_snapshot db fetch now c page maxPages 0 =
        Except.ok (db', res, fc) → res.reused = 0 ∧ 1 ≤ fc) := by
  have hp' : ¬ page < 1 := by omega
  have hmp' : ¬ maxPages < 1 := by omega
  refine ⟨?_, ?_, ?_, ?_⟩
  · intro _hw
    exact reuseCandidate_isSome_iff db c _ _
  · intro hw run hhit
    exact ingest_reuse_hit db fetch now c page maxPages w run hp' hmp' hw hhit
  · intro hw hmiss
    rw [ingest_reuse_miss db fetch now c page maxPages w hp' hmp' hw hmiss,
      ingest_no_window db fetch now c page maxPages hp' hmp']
  · intro db' res fc h
    rw [ingest_no_window db fetch now c page maxPages hp' hmp'] at h
    obtain ⟨fp, lists, pf, fcs, _hf, _hpl, _hdb, hres, hfc⟩ :=
      ingestFresh_ok_shape db fetch now c page maxPages db' res fc h
    subst hres
    subst hfc
    exact ⟨rfl, by omega⟩

/-- C5 witness database: complex 7 has one successful run completed at 13:59
UTC (minute 839 of day 0). -/
def exC5DB : DB :=
  { runs := [⟨1, 7, 830, some 839, "SUCCESS", ⟨[]⟩⟩], snapshots := [] }

/-- An upstream that always answers with an empty page. -/
def exEmptyFetch : Fetch := fun _ => Except.ok ⟨[]⟩

/-- C5 witness: with 6-hour buckets, a request at 13:50 (minute 830, bucket
[12:00,18:00)) reuses the 13:59 run with no fetch; a request at 18:01
(minute 1081, bucket [18:00,24:00)) misses and behaves like a forced fresh
call. -/
theorem reuse_window_bucketing_witness :
    reuseCandidate exC5DB 7 (resolve_time_bucket 830 6).1
        (resolve_time_bucket 830 6).2
      = some ⟨1, 7, 830, some 839, "SUCCESS", ⟨[]⟩⟩ ∧
    ingest_complex_snapshot exC5DB exEmptyFetch 830 7 1 1 6 =
      Except.ok (exC5DB,
        { crawl_run_id := 1, complex_no := 7, listing_count := 0,
          pages_fetched := 0, reused := 1 }, 0) ∧
    reuseCandidate exC5DB 7 (resolve_time_bucket 1081 6).1
        (resolve_time_bucket 1081 6).2 = none ∧
    ingest_complex_snapshot exC5DB exEmptyFetch 1081 7 1 1 6 =
      ingest_complex_snapshot exC5DB exEmptyFetch 1081 7 1 1 0 :=
  ⟨by decide,
   (reuse_window_bucketing exC5DB exEmptyFetch 830 7 1 1 6 le_rfl le_rfl).2.1
     (by omega) ⟨1, 7, 830, some 839, "SUCCESS", ⟨[]⟩⟩ (by decide),
   by decide,
   (reuse_window_bucketing exC5DB exEmptyFetch 1081 7 1 1 6 le_rfl le_rfl).2.2.1
     (by omega) (by decide)⟩

/-- C6 counterexample: the claim says an empty first-page response fails the
whole ingestion call, but on an empty database with an upstream returning an
empty article list the call *succeeds*, committing a completed `SUCCESS` run
with zero listings (`ingest.py:92-94` just breaks out of the page loop and
`ingest.py:128-129` commits). -/
theorem empty_first_page_counterexample :
    ingest_complex_snapshot ⟨[], []⟩ exEmptyFetch 0 7 1 1 0 =
      Except.ok
        (⟨[⟨1, 7, 0, some 0, "SUCCESS", ⟨[]⟩⟩], []⟩,
         { crawl_run_id := 1, complex_no := 7, listing_count := 0,
           pages_fetched := 0, reused := 0 }, 1) := by
  rfl

/-- C6 amended: a first-page fetch that *raises* (malformed response, upstream
error) fails the whole ingestion call; a well-formed first page with an empty
article list is not fatal — the run is committed successfully with zero
listings; an empty article list on a later page stops pagination with the run
still succeeding; a fetch error on a later page is fatal to the whole call. -/
theorem first_page_failure_semantics (db : DB) (fetch : Fetch) (now c : Int)
    (page maxPages : Nat) (hp : 1 ≤ page) (hmp : 1 ≤ maxPages) :
    (∀ e, fetch page = Except.error e →
      ingest_complex_snapshot db fetch now c page maxPages 0 = Except.error e) ∧
    (∀ fp, fetch page = Except.ok fp → fp.articleList = [] →
      ingest_complex_snapshot db fetch now c page maxPages 0 =
        Except.ok
          ({ runs := db.runs ++
              [⟨freshRunId db, c, now, some now, "SUCCESS", fp⟩],
             snapshots := db.snapshots },
           { crawl_run_id := freshRunId db, complex_no := c,
             listing_count := 0, pages_fetched := 0, reused := 0 }, 1)) ∧
    (∀ fp fp2 mp2, maxPages = mp2 + 2 → fetch page = Except.ok fp →
      fp.articleList ≠ [] → fetch (page + 1) = Except.ok fp2 →
      fp2.articleList = [] →
      ∃ db' res, ingest_complex_snapshot db fetch now c page maxPages 0 =
        Except.ok (db', res, 2) ∧ res.pages_fetched = 1 ∧ res.reused = 0) ∧
    (∀ fp e mp2, maxPages = mp2 + 2 → fetch page = Except.ok fp →
      fp.articleList ≠ [] → fetch (page + 1) = Except.error e →
      ingest_complex_snapshot db fetch now c page maxPages 0 = Except.error e) := by
  have hp' : ¬ page < 1 := by omega
  have hmp' : ¬ maxPages < 1 := by omega
  rw [ingest_no_window db fetch now c page maxPages hp' hmp']
  refine ⟨?_, ?_, ?_, ?_⟩
  · intro e hf
    exact ingestFresh_first_error db fetch now c page maxPages e hf
  · intro fp hf hempty
    have hpl : pageLists fetch page maxPages fp = Except.ok ([], 0, 0) := by
      unfold pageLists
      rw [if_pos (List.isEmpty_iff.mpr hempty)]
    rw [ingestFresh_ok db fetch now c page maxPages fp [] 0 0 hf hpl]
    simp [snapshotsOfArticles, dedupArticles]
  · intro fp fp2 mp2 hmp2 hf hne hf2 hempty2
    subst hmp2
    have hlp : laterPages fetch (page + 1) (mp2 + 2 - 1) = Except.ok ([], 0, 1) := by
      have : mp2 + 2 - 1 = mp2 + 1 := by omega
      rw [this]
      unfold laterPages
      simp [hf2, hempty2]
    have hpl : pageLists fetch page (mp2 + 2) fp =
        Except.ok ([fp.articleList], 1, 1) := by
      unfold pageLists
      rw [if_neg (by simp [hne])]
      simp only [hlp]
    refine ⟨_, _, ingestFresh_ok db fetch now c page (mp2 + 2) fp
      [fp.articleList] 1 1 hf hpl, rfl, rfl⟩
  · intro fp e mp2 hmp2 hf hne hf2
    subst hmp2
    have hlp : laterPages fetch (page + 1) (mp2 + 2 - 1) = Except.error e := by
      have : mp2 + 2 - 1 = mp2 + 1 := by omega
      rw [this]
      unfold laterPages
      simp [hf2]
    have hpl : pageLists fetch page (mp2 + 2) fp = Except.error e := by
      unfold pageLists
      rw [if_neg (by simp [hne])]
      simp only [hlp]
    exact ingestFresh_pages_error db fetch now c page (mp2 + 2) fp e hf hpl

/-- An upstream whose every fetch raises. -/
def exErrorFetch : Fetch := fun _ => Except.error "Naver API HTTP error"

/-- C6 amended witness: a first-page fetch error on an empty database fails
the whole call with that error. -/
theorem first_page_failure_semantics_witness :
    ingest_complex_snapshot ⟨[], []⟩ exErrorFetch 0 7 1 1 0 =
      Except.error "Naver API HTTP error" :=
  (first_page_failure_semantics ⟨[], []⟩ exErrorFetch 0 7 1 1 le_rfl le_rfl).1
    "Naver API HTTP error" rfl

theorem ingest_hit_general (db : DB) (fetch : Fetch) (now c : Int)
    (page maxPages w : Nat) (run : CrawlRun)
    (hp : ¬ page < 1) (hmp : ¬ maxPages < 1)
    (hhit : (if 0 < w then
        reuseCandidate db c (resolve_time_bucket now w).1
          (resolve_time_bucket now w).2
      else none) = some run) :
    ingest_complex_snapshot db fetch now c page maxPages w =
      Except.ok (db,
        { crawl_run_id := run.id, complex_no := c,
          listing_count := countRunListings db run.id,
          pages_fetched := 0, reused := 1 }, 0) := by
  unfold ingest_complex_snapshot
  rw [if_neg hp, if_neg hmp, hhit]

theorem ingest_miss_general (db : DB) (fetch : Fetch) (now c : Int)
    (page maxPages w : Nat)
    (hp : ¬ page < 1) (hmp : ¬ maxPages < 1)
    (hmiss : (if 0 < w then
        reuseCandidate db c (resolve_time_bucket now w).1
          (resolve_time_bucket now w).2
      else none) = none) :
    ingest_complex_snapshot db fetch now c page maxPages w =
      ingestFresh db fetch now c page maxPages := by
  unfold ingest_complex_snapshot
  rw [if_neg hp, if_neg hmp, hmiss]

/-- C7: ingestion is all-or-nothing.  Every successful call either reuses (the
database is untouched) or commits exactly one completed `SUCCESS` run row
together with its snapshot rows in one step; a fetch failure on the first page
or on any later reached page makes the whole call return `Except.error` — and
an erroring call produces no database at all in this embedding, i.e. nothing
is persisted and the error reaches the caller. -/
theorem ingestion_all_or_nothing (db : DB) (fetch : Fetch) (now c : Int)
    (page maxPages w : Nat) (hp : 1 ≤ page) (hmp : 1 ≤ maxPages) :
    (∀ db' res fc, ingest_complex_snapshot db fetch now c page maxPages w =
        Except.ok (db', res, fc) →
      (res.reused = 1 ∧ db' = db) ∨
      (res.reused = 0 ∧ ∃ run snaps, run.status = "SUCCESS" ∧
        run.completed_at = some now ∧
        db' = { runs := db.runs ++ [run],
                snapshots := db.snapshots ++ snaps })) ∧
    (∀ e, (0 < w → reuseCandidate db c (resolve_time_bucket now w).1
        (resolve_time_bucket now w).2 = none) →
      fetch page = Except.error e →
      ingest_complex_snapshot db fetch now c page maxPages w = Except.error e) ∧
    (∀ fp e, (0 < w → reuseCandidate db c (resolve_time_bucket now w).1
        (resolve_time_bucket now w).2 = none) →
      fetch page = Except.ok fp →
      pageLists fetch page maxPages fp = Except.error e →
      ingest_complex_snapshot db fetch now c page maxPages w = Except.error e) ∧
    (∀ cur n e, fetch cur = Except.error e →
      laterPages fetch cur (n + 1) = Except.error e) := by
  have hp' : ¬ page < 1 := by omega
  have hmp' : ¬ maxPages < 1 := by omega
  have hmiss : ∀ _h : (0 < w → reuseCandidate db c (resolve_time_bucket now w).1
      (resolve_time_bucket now w).2 = none),
      (if 0 < w then
        reuseCandidate db c (resolve_time_bucket now w).1
          (resolve_time_bucket now w).2
      else none) = none := by
    intro h
    by_cases hw : 0 < w
    · rw [if_pos hw]
      exact h hw
    · rw [if_neg hw]
  refine ⟨?_, ?_, ?_, ?_⟩
  · intro db' res fc h
    rcases hhit : (if 0 < w then
        reuseCandidate db c (resolve_time_bucket now w).1
          (resolve_time_bucket now w).2
      else none) with _ | run
    · rw [ingest_miss_general db fetch now c page maxPages w hp' hmp' hhit] at h
      obtain ⟨fp, lists, pf, fcs, _hf, _hpl, hdb, hres, _hfc⟩ :=
        ingestFresh_ok_shape db fetch now c page maxPages db' res fc h
      subst hres
      exact Or.inr ⟨rfl, _, _, rfl, rfl, hdb⟩
    · rw [ingest_hit_general db fetch now c page maxPages w run hp' hmp' hhit] at h
      simp only [Except.ok.injEq, Prod.mk.injEq] at h
      refine Or.inl ⟨?_, h.1.symm⟩
      rw [← h.2.1]
  · intro e hm hf
    rw [ingest_miss_general db fetch now c page maxPages w hp' hmp' (hmiss hm)]
    exact ingestFresh_first_error db fetch now c page maxPages e hf
  · intro fp e hm hf hpl
    rw [ingest_miss_general db fetch now c page maxPages w hp' hmp' (hmiss hm)]
    exact ingestFresh_pages_error db fetch now c page maxPages fp e hf hpl
  · intro cur n e hf
    unfold laterPages
    simp [hf]

/-- An article record with a convertible id and a couple of text fields. -/
def exArticle (n : Int) (price : String) : Article :=
  { articleNo := some (RawArticleNo.intLike n), articleName := some "A",
    tradeTypeName := some "매매", dealOrWarrantPrc := some price,
    rentPrc := none, area1 := none, floorInfo := none, direction := none,
    articleConfirmYmd := none }

/-- An upstream for the C7 witness: page 1 has one article, page 2 raises. -/
def exC7Fetch : Fetch := fun p =>
  if p = 1 then Except.ok ⟨[exArticle 100 "5,000"]⟩
  else Except.error "rate limited"

/-- C7 witness: with a two-page budget, the page-2 fetch failure aborts the
whole ingestion call and the error propagates. -/
theorem ingestion_all_or_nothing_witness :
    ingest_complex_snapshot ⟨[], []⟩ exC7Fetch 0 7 1 2 0 =
      Except.error "rate limited" :=
  (ingestion_all_or_nothing ⟨[], []⟩ exC7Fetch 0 7 1 2 0 le_rfl (by omega)).2.2.1
    ⟨[exArticle 100 "5,000"]⟩ "rate limited" (fun h => absurd h (by omega))
    rfl (by rfl)

/-- C4 witness: on `exC3DB` (baseline length exactly 5, latest run 2) the
returned bargain list is sorted by discount rate descending. -/
theorem discount_threshold_flagging_witness :
    5 ≤ (baselinePrices exC3DB 7 0 (normalize_trade_type_name none) 5).length ∧
    (detect_bargains exC3DB 7 0 (8 / 100) none 5).Pairwise
      (fun a b => b.discount_rate ≤ a.discount_rate) :=
  ⟨by decide,
   (discount_threshold_flagging exC3DB 7 0 (8 / 100) none 5 2
      (normalize_trade_type_name none)
      (pyMedian (baselinePrices exC3DB 7 0 (normalize_trade_type_name none) 5))
      rfl rfl (by decide) (by decide)).2.2.2.1⟩

/- ### Dedup lemmas for C8 -/

theorem dedupArticles_cons_skip (seen : List Int) (a : Article)
    (rest : List Article) (hc : convertArticleNo a.articleNo = none) :
    dedupArticles seen (a :: rest) = dedupArticles seen rest := by
  have h0 : dedupArticles seen (a :: rest) =
      match convertArticleNo a.articleNo with
      | none => dedupArticles seen rest
      | some n =>
        if seen.contains n then dedupArticles seen rest
        else (n, a) :: dedupArticles (n :: seen) rest := rfl
  rw [h0, hc]

theorem dedupArticles_cons_conv (seen : List Int) (a : Article)
    (rest : List Article) (m : Int)
    (hc : convertArticleNo a.articleNo = some m) :
    dedupArticles seen (a :: rest) =
      if seen.contains m then dedupArticles seen rest
      else (m, a) :: dedupArticles (m :: seen) rest := by
  have h0 : dedupArticles seen (a :: rest) =
      match convertArticleNo a.articleNo with
      | none => dedupArticles seen rest
      | some n =>
        if seen.contains n then dedupArticles seen rest
        else (n, a) :: dedupArticles (n :: seen) rest := rfl
  rw [h0, hc]

theorem dedup_filter_of_seen (articles : List Article) :
    ∀ (seen : List Int) (n : Int), n ∈ seen →
      (dedupArticles seen articles).filter (fun p => p.1 == n) = [] := by
  induction articles with
  | nil => intro seen n _h; rfl
  | cons a rest ih =>
    intro seen n hn
    cases hc : convertArticleNo a.articleNo with
    | none =>
      rw [dedupArticles_cons_skip seen a rest hc]
      exact ih seen n hn
    | some m =>
      rw [dedupArticles_cons_conv seen a rest m hc]
      by_cases hm : seen.contains m
      · rw [if_pos hm]
        exact ih seen n hn
      · rw [if_neg hm]
        have hmn : ¬ (m == n) = true := by
          intro h
          rw [beq_iff_eq] at h
          subst h
          exact hm (List.elem_eq_true_of_mem hn)
        rw [List.filter_cons_of_neg (by simpa using hmn)]
        exact ih (m :: seen) n (List.mem_cons_of_mem m hn)

theorem dedup_filter_first (articles : List Article) :
    ∀ (seen : List Int) (n : Int), ¬ n ∈ seen →
      (dedupArticles seen articles).filter (fun p => p.1 == n) =
        (match articles.find? (fun a => convertArticleNo a.articleNo == some n) with
         | some a => [(n, a)]
         | none => []) := by
  induction articles with
  | nil => intro seen n _h; rfl
  | cons a rest ih =>
    intro seen n hn
    cases hc : convertArticleNo a.articleNo with
    | none =>
      rw [dedupArticles_cons_skip seen a rest hc,
        List.find?_cons_of_neg _ (by simp [hc])]
      exact ih seen n hn
    | some m =>
      rw [dedupArticles_cons_conv seen a rest m hc]
      by_cases hm : seen.contains m
      · have hmn : ¬ (m = n) := by
          intro h
          subst h
          exact hn (List.mem_of_elem_eq_true hm)
        rw [if_pos hm, List.find?_cons_of_neg _ (by simp [hc, hmn])]
        exact ih seen n hn
      · rw [if_neg hm]
        by_cases hnm : n = m
        · subst hnm
          rw [List.find?_cons_of_pos _ (by simp [hc])]
          rw [List.filter_cons_of_pos (by simp)]
          rw [dedup_filter_of_seen rest (n :: seen) n (List.mem_cons_self n seen)]
        · rw [List.find?_cons_of_neg _ (by simp [hc, Ne.symm hnm])]
          rw [List.filter_cons_of_neg (by simp [Ne.symm hnm])]
          exact ih (m :: seen) n (by
            intro h
            rcases List.mem_cons.mp h with h' | h'
            · exact hnm h'
            · exact hn h')

theorem dedup_meta (articles : List Article) :
    ∀ (seen : List Int) (p : Int × Article), p ∈ dedupArticles seen articles →
      convertArticleNo p.2.articleNo = some p.1 := by
  induction articles with
  | nil => intro seen p h; cases h
  | cons a rest ih =>
    intro seen p h
    cases hc : convertArticleNo a.articleNo with
    | none =>
      rw [dedupArticles_cons_skip seen a rest hc] at h
      exact ih seen p h
    | some m =>
      rw [dedupArticles_cons_conv seen a rest m hc] at h
      by_cases hm : seen.contains m
      · rw [if_pos hm] at h
        exact ih seen p h
      · rw [if_neg hm] at h
        rcases List.mem_cons.mp h with h' | h'
        · subst h'
          exact hc
        · exact ih (m :: seen) p h'

/-- C8: per-run dedup.  Among the snapshot rows one run persists for its
fetched articles, each article id occurs at most once: filtering the rows by
an id yields exactly the one row built from the *first* occurrence of that id
when one exists (and nothing otherwise); every persisted row stems from an
article whose id converted (missing/malformed ids are skipped); and every
fresh successful ingestion call persists exactly such a deduped row set for
the one run it commits — the dedup `seen` set spans all pages of the call. -/
theorem ingest_dedup_per_run (runId : Nat) (c now : Int)
    (articles : List Article) :
    (∀ n : Int,
      (snapshotsOfArticles runId c now articles).filter
          (fun s => s.article_no == n) =
        (match articles.find? (fun a => convertArticleNo a.articleNo == some n) with
         | some a => [mkListingSnapshot runId c now n a]
         | none => [])) ∧
    (∀ s ∈ snapshotsOfArticles runId c now articles,
      convertArticleNo s.listing_meta.articleNo = some s.article_no) ∧
    (∀ (db : DB) (fetch : Fetch) (now' c' : Int) (page maxPages w : Nat)
        (db' : DB) (res : IngestResult) (fc : Nat),
      1 ≤ page → 1 ≤ maxPages →
      ingest_complex_snapshot db fetch now' c' page maxPages w =
        Except.ok (db', res, fc) → res.reused = 0 →
      ∃ arts, db'.snapshots = db.snapshots ++
        snapshotsOfArticles res.crawl_run_id c' now' arts) := by
  refine ⟨?_, ?_, ?_⟩
  · intro n
    unfold snapshotsOfArticles
    rw [List.filter_map]
    have hchg : List.filter ((fun s => s.article_no == n) ∘
        (fun p : Int × Article => mkListingSnapshot runId c now p.1 p.2))
        (dedupArticles [] articles)
        = List.filter (fun pr : Int × Article => pr.1 == n)
          (dedupArticles [] articles) := by
      apply List.filter_congr
      intro pr _
      rfl
    rw [hchg, dedup_filter_first articles [] n (List.not_mem_nil n)]
    cases articles.find? (fun a => convertArticleNo a.articleNo == some n) with
    | none => rfl
    | some a => rfl
  · intro s hs
    unfold snapshotsOfArticles at hs
    obtain ⟨pr, hpr, rfl⟩ := List.mem_map.mp hs
    exact dedup_meta articles [] pr hpr
  · intro db fetch now' c' page maxPages w db' res fc hp hmp h hreused
    rcases hhit : (if 0 < w then
        reuseCandidate db c' (resolve_time_bucket now' w).1
          (resolve_time_bucket now' w).2
      else none) with _ | run
    · rw [ingest_miss_general db fetch now' c' page maxPages w
        (by omega) (by omega) hhit] at h
      obtain ⟨fp, lists, pf, fcs, _hf, _hpl, hdb, hres, _hfc⟩ :=
        ingestFresh_ok_shape db fetch now' c' page maxPages db' res fc h
      subst hres
      exact ⟨lists.flatten, by rw [hdb]⟩
    · rw [ingest_hit_general db fetch now' c' page maxPages w run
        (by omega) (by omega) hhit] at h
      simp only [Except.ok.injEq, Prod.mk.injEq] at h
      rw [← h.2.1] at hreused
      cases hreused

/-- An article whose `articleNo` value makes `int()` raise. -/
def exBadArticle : Article :=
  { blankArticle with articleNo := some RawArticleNo.malformed }

/-- C8 witness articles: id 100 twice (different price texts), one malformed
id, then id 200. -/
def exC8Articles : List Article :=
  [exArticle 100 "5,000", exArticle 100 "9,999", exBadArticle,
   exArticle 200 "1억"]

/-- C8 witness upstream: one page carrying `exC8Articles`. -/
def exC8Fetch : Fetch := fun p =>
  if p = 1 then Except.ok ⟨exC8Articles⟩ else Except.ok ⟨[]⟩

/-- C8 witness: the concrete ingestion persists exactly the two deduped rows
(first occurrence of id 100, then id 200), and the theorem's shape clause
applies to it. -/
theorem ingest_dedup_per_run_witness :
    ingest_complex_snapshot ⟨[], []⟩ exC8Fetch 0 7 1 1 0 =
      Except.ok
        (⟨[⟨1, 7, 0, some 0, "SUCCESS", ⟨exC8Articles⟩⟩],
          [mkListingSnapshot 1 7 0 100 (exArticle 100 "5,000"),
           mkListingSnapshot 1 7 0 200 (exArticle 200 "1억")]⟩,
         { crawl_run_id := 1, complex_no := 7, listing_count := 2,
           pages_fetched := 1, reused := 0 }, 1) ∧
    ∃ arts,
      ([mkListingSnapshot 1 7 0 100 (exArticle 100 "5,000"),
        mkListingSnapshot 1 7 0 200 (exArticle 200 "1억")] : List ListingSnapshot)
        = ([] : List ListingSnapshot) ++ snapshotsOfArticles 1 7 0 arts :=
  ⟨by rfl,
   (ingest_dedup_per_run 1 7 0 exC8Articles).2.2 ⟨[], []⟩ exC8Fetch 0 7 1 1 0
     ⟨[⟨1, 7, 0, some 0, "SUCCESS", ⟨exC8Articles⟩⟩],
      [mkListingSnapshot 1 7 0 100 (exArticle 100 "5,000"),
       mkListingSnapshot 1 7 0 200 (exArticle 200 "1억")]⟩
     { crawl_run_id := 1, complex_no := 7, listing_count := 2,
       pages_fetched := 1, reused := 0 } 1 le_rfl le_rfl (by rfl) rfl⟩

/- ### Dispatch lemmas for C9 -/

theorem filterMap_if_none_some {α : Type} (p : α → Bool) (l : List α) :
    l.filterMap (fun i => if p i then none else some i)
      = l.filter (fun i => !p i) := by
  induction l with
  | nil => rfl
  | cons a l ih =>
    rw [List.filterMap_cons, List.filter_cons]
    by_cases hp : p a
    · simp only [hp, if_true, Bool.not_true, if_false]
      exact ih
    · simp only [hp, Bool.not_false, if_false, if_true, ih]
      rfl

theorem filterMap_if_none_some_map {α β : Type} (p : α → Bool) (f : α → β)
    (l : List α) :
    l.filterMap (fun i => if p i then none else some (f i))
      = (l.filter (fun i => !p i)).map f := by
  induction l with
  | nil => rfl
  | cons a l ih =>
    rw [List.filterMap_cons, List.filter_cons]
    by_cases hp : p a
    · simp only [hp, if_true, Bool.not_true, if_false]
      exact ih
    · simp only [hp, Bool.not_false, if_false, if_true, List.map_cons, ih]
      rfl

/-- For a key of the batch, membership in the `existing_keys` query result is
exactly "a dispatch record for this (user, channel, bargain, key) exists". -/
theorem existing_keys_contains (logs : List AlertDispatchLog) (u : Nat)
    (ch : String) (keys : List String) (k : String) (hk : k ∈ keys) :
    ((logs.filter fun r =>
        r.user_id == u && r.channel == ch && r.alert_type == "bargain" &&
          keys.contains r.dedupe_key).map (fun r => r.dedupe_key)).contains k
      = loggedBargain logs u ch k := by
  rw [Bool.eq_iff_iff]
  unfold loggedBargain
  rw [show (((logs.filter fun r =>
      r.user_id == u && r.channel == ch && r.alert_type == "bargain" &&
        keys.contains r.dedupe_key).map (fun r => r.dedupe_key)).contains k)
      = ((logs.filter fun r =>
      r.user_id == u && r.channel == ch && r.alert_type == "bargain" &&
        keys.contains r.dedupe_key).map (fun r => r.dedupe_key)).elem k from rfl,
    List.elem_iff, List.any_eq_true]
  constructor
  · intro hmem
    obtain ⟨r, hr, hkey⟩ := List.mem_map.mp hmem
    have hf := List.mem_filter.mp hr
    refine ⟨r, hf.1, ?_⟩
    have hp := hf.2
    simp only [Bool.and_eq_true] at hp
    simp only [Bool.and_eq_true]
    exact ⟨⟨⟨hp.1.1.1, hp.1.1.2⟩, hp.1.2⟩, by rw [hkey]; exact beq_self_eq_true k⟩
  · rintro ⟨r, hr, hp⟩
    simp only [Bool.and_eq_true, beq_iff_eq] at hp
    apply List.mem_map.mpr
    refine ⟨r, List.mem_filter.mpr ⟨hr, ?_⟩, hp.2⟩
    simp only [Bool.and_eq_true, beq_iff_eq]
    refine ⟨⟨⟨hp.1.1.1, hp.1.1.2⟩, hp.1.2⟩, ?_⟩
    rw [hp.2]
    exact List.elem_eq_true_of_mem hk

/-- `_filter_unsent_items` drops exactly the already-logged items and returns
the keys of the remainder. -/
theorem filter_unsent_items_eq (logs : List AlertDispatchLog) (u : Nat)
    (ch : String) (items : List BargainItem) :
    filter_unsent_items logs u ch items =
      (items.filter
        (fun i => !(loggedBargain logs u ch (bargain_dedupe_key i))),
       (items.filter
        (fun i => !(loggedBargain logs u ch (bargain_dedupe_key i)))).map
          bargain_dedupe_key) := by
  cases items with
  | nil => rfl
  | cons i0 rest =>
    simp only [filter_unsent_items]
    rw [if_neg (by simp)]
    have hkeys : ∀ i ∈ i0 :: rest,
        (((i0 :: rest).map fun i => (bargain_dedupe_key i, i)).map Prod.fst).contains
          (bargain_dedupe_key i) = true := by
      intro i hi
      apply List.elem_eq_true_of_mem
      rw [List.map_map]
      exact List.mem_map.mpr ⟨i, hi, rfl⟩
    rw [List.filterMap_map, List.filterMap_map]
    have hcongr1 : ((i0 :: rest).filterMap
        ((fun p : String × BargainItem =>
          if (((logs.filter fun r =>
              r.user_id == u && r.channel == ch && r.alert_type == "bargain" &&
                (((i0 :: rest).map fun i => (bargain_dedupe_key i, i)).map
                  Prod.fst).contains r.dedupe_key).map
                (fun r => r.dedupe_key)).contains p.1) then none else some p.2)
          ∘ (fun i => (bargain_dedupe_key i, i))))
        = (i0 :: rest).filterMap
          (fun i => if loggedBargain logs u ch (bargain_dedupe_key i) then none
            else some i) := by
      apply List.filterMap_congr
      intro i hi
      simp only [Function.comp]
      rw [existing_keys_contains logs u ch _ (bargain_dedupe_key i)
        (by rw [List.map_map]; exact List.mem_map.mpr ⟨i, hi, rfl⟩)]
    have hcongr2 : ((i0 :: rest).filterMap
        ((fun p : String × BargainItem =>
          if (((logs.filter fun r =>
              r.user_id == u && r.channel == ch && r.alert_type == "bargain" &&
                (((i0 :: rest).map fun i => (bargain_dedupe_key i, i)).map
                  Prod.fst).contains r.dedupe_key).map
                (fun r => r.dedupe_key)).contains p.1) then none else some p.1)
          ∘ (fun i => (bargain_dedupe_key i, i))))
        = (i0 :: rest).filterMap
          (fun i => if loggedBargain logs u ch (bargain_dedupe_key i) then none
            else some (bargain_dedupe_key i)) := by
      apply List.filterMap_congr
      intro i hi
      simp only [Function.comp]
      rw [existing_keys_contains logs u ch _ (bargain_dedupe_key i)
        (by rw [List.map_map]; exact List.mem_map.mpr ⟨i, hi, rfl⟩)]
    rw [hcongr1, hcongr2, filterMap_if_none_some, filterMap_if_none_some_map]

/-- Log lookups distribute over an appended batch of records. -/
theorem loggedBargain_append (logs more : List AlertDispatchLog) (u : Nat)
    (ch k : String) :
    loggedBargain (logs ++ more) u ch k
      = (loggedBargain logs u ch k || loggedBargain more u ch k) := by
  unfold loggedBargain
  exact List.any_append

/-- A batch of same-channel records covers exactly its keys. -/
theorem loggedBargain_records_same (u : Nat) (ch : String) (ks : List String)
    (k : String) :
    loggedBargain (ks.map fun k' =>
        { user_id := u, channel := ch, alert_type := "bargain", dedupe_key := k' })
      u ch k = ks.contains k := by
  induction ks with
  | nil => rfl
  | cons k' ks ih =>
    unfold loggedBargain at *
    rw [List.map_cons, List.any_cons, ih, List.contains_cons]
    simp only [beq_self_eq_true, Bool.true_and]
    rw [show ((k' : String) == k) = (k == k') from Bool.beq_comm]

/-- Records written for a different channel never satisfy a lookup. -/
theorem loggedBargain_records_other (u : Nat) (ch ch' : String)
    (hne : ch' ≠ ch) (ks : List String) (k : String) :
    loggedBargain (ks.map fun k' =>
        { user_id := u, channel := ch', alert_type := "bargain", dedupe_key := k' })
      u ch k = false := by
  induction ks with
  | nil => rfl
  | cons k' ks ih =>
    unfold loggedBargain at *
    rw [List.map_cons, List.any_cons, ih]
    simp [hne]

theorem dispatch_noop (logs : List AlertDispatchLog) (u : Nat)
    (setting : UserNotificationSetting) (items : List BargainItem)
    (eS tS : Bool × String)
    (hno : (items.isEmpty || !setting.bargain_alert_enabled) = true) :
    dispatch_user_bargain_alerts logs u setting items eS tS =
      (logs, { email_sent := 0, telegram_sent := 0, email_reason := "",
               telegram_reason := "" }) := by
  simp only [dispatch_user_bargain_alerts]
  rw [if_pos hno]

theorem dispatch_unfold (logs : List AlertDispatchLog) (u : Nat)
    (setting : UserNotificationSetting) (items : List BargainItem)
    (eS tS : Bool × String)
    (hno : ¬ (items.isEmpty || !setting.bargain_alert_enabled) = true) :
    dispatch_user_bargain_alerts logs u setting items eS tS =
      ((dispatchChannel (dispatchChannel logs u "email" setting.email_enabled
          setting.email_address items eS).1 u "telegram"
          setting.telegram_enabled setting.telegram_chat_id items tS).1,
       { email_sent := (dispatchChannel logs u "email" setting.email_enabled
           setting.email_address items eS).2.1,
         telegram_sent := (dispatchChannel (dispatchChannel logs u "email"
           setting.email_enabled setting.email_address items eS).1 u "telegram"
           setting.telegram_enabled setting.telegram_chat_id items tS).2.1,
         email_reason := (dispatchChannel logs u "email" setting.email_enabled
           setting.email_address items eS).2.2,
         telegram_reason := (dispatchChannel (dispatchChannel logs u "email"
           setting.email_enabled setting.email_address items eS).1 u "telegram"
           setting.telegram_enabled setting.telegram_chat_id items tS).2.2 }) := by
  simp only [dispatch_user_bargain_alerts]
  rw [if_neg hno]

theorem dispatchChannel_all_logged (logs : List AlertDispatchLog) (u : Nat)
    (ch : String) (enabled : Bool) (dest : Option String)
    (items : List BargainItem) (send : Bool × String)
    (hall : ∀ i ∈ items,
      loggedBargain logs u ch (bargain_dedupe_key i) = true) :
    dispatchChannel logs u ch enabled dest items send = (logs, 0, "") := by
  simp only [dispatchChannel]
  by_cases hon : (enabled && pyTruthyStr dest) = true
  · rw [if_pos hon]
    have hnil : (filter_unsent_items logs u ch items).1 = [] := by
      rw [filter_unsent_items_eq]
      exact List.filter_eq_nil_iff.mpr
        (fun i hi => by rw [hall i hi]; decide)
    rw [hnil]
    simp
  · rw [if_neg hon]

theorem dispatchChannel_shape (logs : List AlertDispatchLog) (u : Nat)
    (ch : String) (enabled : Bool) (dest : Option String)
    (items : List BargainItem) (send : Bool × String) :
    (dispatchChannel logs u ch enabled dest items send).1 = logs ∨
    ∃ ks : List String, (∀ k ∈ ks, ∃ i ∈ items, k = bargain_dedupe_key i) ∧
      (dispatchChannel logs u ch enabled dest items send).1 =
        logs ++ ks.map (fun k =>
          { user_id := u, channel := ch, alert_type := "bargain",
            dedupe_key := k }) := by
  simp only [dispatchChannel]
  by_cases hon : (enabled && pyTruthyStr dest) = true
  · rw [if_pos hon]
    by_cases hne : (!(filter_unsent_items logs u ch items).1.isEmpty) = true
    · rw [if_pos hne]
      by_cases hs : send.1 = true
      · rw [if_pos hs]
        right
        refine ⟨(filter_unsent_items logs u ch items).2, ?_, rfl⟩
        intro k hk
        rw [filter_unsent_items_eq] at hk
        obtain ⟨i, hi, rfl⟩ := List.mem_map.mp hk
        exact ⟨i, (List.mem_filter.mp hi).1, rfl⟩
      · rw [if_neg hs]
        exact Or.inl rfl
    · rw [if_neg hne]
      exact Or.inl rfl
  · rw [if_neg hon]
    exact Or.inl rfl

theorem dispatchChannel_mono (logs : List AlertDispatchLog) (u : Nat)
    (ch : String) (enabled : Bool) (dest : Option String)
    (items : List BargainItem) (send : Bool × String) (ch0 k : String)
    (h : loggedBargain logs u ch0 k = true) :
    loggedBargain (dispatchChannel logs u ch enabled dest items send).1
      u ch0 k = true := by
  rcases dispatchChannel_shape logs u ch enabled dest items send with hs | ⟨ks, _, hs⟩
  · rw [hs]
    exact h
  · rw [hs, loggedBargain_append, h]
    rfl

theorem dispatchChannel_covers (logs : List AlertDispatchLog) (u : Nat)
    (ch : String) (enabled : Bool) (dest : Option String)
    (items : List BargainItem) (send : Bool × String)
    (hsend : send.1 = true) (hon : (enabled && pyTruthyStr dest) = true) :
    ∀ i ∈ items,
      loggedBargain (dispatchChannel logs u ch enabled dest items send).1
        u ch (bargain_dedupe_key i) = true := by
  intro i hi
  simp only [dispatchChannel]
  rw [if_pos hon]
  by_cases hlog : loggedBargain logs u ch (bargain_dedupe_key i) = true
  · by_cases hne : (!(filter_unsent_items logs u ch items).1.isEmpty) = true
    · rw [if_pos hne, if_pos hsend]
      show loggedBargain (logs ++ _) u ch (bargain_dedupe_key i) = true
      rw [loggedBargain_append, hlog]
      rfl
    · rw [if_neg hne]
      exact hlog
  · have hlogf : loggedBargain logs u ch (bargain_dedupe_key i) = false := by
      revert hlog
      cases loggedBargain logs u ch (bargain_dedupe_key i) <;> simp
    have hmem : i ∈ (filter_unsent_items logs u ch items).1 := by
      rw [filter_unsent_items_eq]
      exact List.mem_filter.mpr ⟨hi, by rw [hlogf]; rfl⟩
    have hne : (!(filter_unsent_items logs u ch items).1.isEmpty) = true := by
      rcases hcase : (filter_unsent_items logs u ch items).1 with _ | ⟨a, l⟩
      · rw [hcase] at hmem
        cases hmem
      · rfl
    rw [if_pos hne, if_pos hsend]
    show loggedBargain (logs ++ ((filter_unsent_items logs u ch items).2).map _)
      u ch (bargain_dedupe_key i) = true
    rw [loggedBargain_append, loggedBargain_records_same]
    have hk : (filter_unsent_items logs u ch items).2.contains
        (bargain_dedupe_key i) = true := by
      apply List.elem_eq_true_of_mem
      rw [filter_unsent_items_eq]
      rw [filter_unsent_items_eq] at hmem
      exact List.mem_map.mpr ⟨i, hmem, rfl⟩
    rw [hk]
    simp

/-- Dedupe keys of items agreeing on complex and article differ exactly when
the deal prices differ. -/
theorem bargain_dedupe_key_price_iff (i j : BargainItem)
    (hc : i.complex_no = j.complex_no) (ha : i.article_no = j.article_no) :
    bargain_dedupe_key i = bargain_dedupe_key j ↔
      i.deal_price_manwon = j.deal_price_manwon := by
  unfold bargain_dedupe_key
  rw [hc, ha]
  constructor
  · intro h
    have hd := congrArg String.data h
    simp only [String.data_append] at hd
    have := List.append_cancel_left hd
    exact pyOptIntStr_injective (String.ext this)
  · intro h
    rw [h]

/-- C9: dispatch is idempotent per (user, channel).  The dedupe key is
`bargain:{complex}:{article}:{deal_price}`, so for a fixed complex and
article it changes exactly with the deal price; `_filter_unsent_items` drops
precisely the items whose key already has a log record for this
(user, channel, "bargain") tuple; dispatching a second time with the
unchanged candidate set (after transports that delivered) sends 0 on every
channel and writes nothing; and the same article at a different deal price is
not filtered — it is sent as a new event. -/
theorem bargain_alert_idempotence :
    (∀ i j : BargainItem, i.complex_no = j.complex_no →
      i.article_no = j.article_no →
      (bargain_dedupe_key i = bargain_dedupe_key j ↔
        i.deal_price_manwon = j.deal_price_manwon)) ∧
    (∀ (logs : List AlertDispatchLog) (u : Nat) (ch : String)
        (items : List BargainItem),
      filter_unsent_items logs u ch items =
        (items.filter
          (fun i => !(loggedBargain logs u ch (bargain_dedupe_key i))),
         (items.filter
          (fun i => !(loggedBargain logs u ch (bargain_dedupe_key i)))).map
            bargain_dedupe_key)) ∧
    (∀ (logs : List AlertDispatchLog) (u : Nat)
        (setting : UserNotificationSetting) (items : List BargainItem)
        (eS tS eS' tS' : Bool × String), eS.1 = true → tS.1 = true →
      dispatch_user_bargain_alerts
          (dispatch_user_bargain_alerts logs u setting items eS tS).1
          u setting items eS' tS' =
        ((dispatch_user_bargain_alerts logs u setting items eS tS).1,
         { email_sent := 0, telegram_sent := 0, email_reason := "",
           telegram_reason := "" })) ∧
    (∀ (logs : List AlertDispatchLog) (u : Nat)
        (setting : UserNotificationSetting) (item item' : BargainItem)
        (eS tS eS' tS' : Bool × String),
      setting.bargain_alert_enabled = true →
      setting.email_enabled = true →
      pyTruthyStr setting.email_address = true →
      item'.complex_no = item.complex_no →
      item'.article_no = item.article_no →
      item'.deal_price_manwon ≠ item.deal_price_manwon →
      loggedBargain logs u "email" (bargain_dedupe_key item') = false →
      eS'.1 = true →
      (dispatch_user_bargain_alerts
          (dispatch_user_bargain_alerts logs u setting [item] eS tS).1
          u setting [item'] eS' tS').2.email_sent = 1) := by
  refine ⟨bargain_dedupe_key_price_iff, filter_unsent_items_eq, ?_, ?_⟩
  · intro logs u setting items eS tS eS' tS' heS htS
    by_cases hno : (items.isEmpty || !setting.bargain_alert_enabled) = true
    · rw [dispatch_noop logs u setting items eS tS hno]
      exact dispatch_noop logs u setting items eS' tS' hno
    · rw [dispatch_unfold logs u setting items eS tS hno]
      have hallE : (setting.email_enabled && pyTruthyStr setting.email_address)
          = true →
          ∀ i ∈ items, loggedBargain
            (dispatchChannel (dispatchChannel logs u "email"
              setting.email_enabled setting.email_address items eS).1 u
              "telegram" setting.telegram_enabled setting.telegram_chat_id
              items tS).1 u "email" (bargain_dedupe_key i) = true := by
        intro hon i hi
        exact dispatchChannel_mono _ u "telegram" setting.telegram_enabled
          setting.telegram_chat_id items tS "email" _
          (dispatchChannel_covers logs u "email" setting.email_enabled
            setting.email_address items eS heS hon i hi)
      have hallT : (setting.telegram_enabled && pyTruthyStr setting.telegram_chat_id)
          = true →
          ∀ i ∈ items, loggedBargain
            (dispatchChannel (dispatchChannel logs u "email"
              setting.email_enabled setting.email_address items eS).1 u
              "telegram" setting.telegram_enabled setting.telegram_chat_id
              items tS).1 u "telegram" (bargain_dedupe_key i) = true :=
        fun hon i hi =>
          dispatchChannel_covers _ u "telegram" setting.telegram_enabled
            setting.telegram_chat_id items tS htS hon i hi
      rw [dispatch_unfold _ u setting items eS' tS' hno]
      have hE' : dispatchChannel
          (dispatchChannel (dispatchChannel logs u "email"
            setting.email_enabled setting.email_address items eS).1 u
            "telegram" setting.telegram_enabled setting.telegram_chat_id
            items tS).1 u "email" setting.email_enabled
          setting.email_address items eS' =
          ((dispatchChannel (dispatchChannel logs u "email"
            setting.email_enabled setting.email_address items eS).1 u
            "telegram" setting.telegram_enabled setting.telegram_chat_id
            items tS).1, 0, "") := by
        by_cases hon : (setting.email_enabled && pyTruthyStr setting.email_address)
            = true
        · exact dispatchChannel_all_logged _ u "email" setting.email_enabled
            setting.email_address items eS' (hallE hon)
        · simp only [dispatchChannel]
          rw [if_neg hon]
      rw [hE']
      have hT' : dispatchChannel
          (dispatchChannel (dispatchChannel logs u "email"
            setting.email_enabled setting.email_address items eS).1 u
            "telegram" setting.telegram_enabled setting.telegram_chat_id
            items tS).1 u "telegram" setting.telegram_enabled
          setting.telegram_chat_id items tS' =
          ((dispatchChannel (dispatchChannel logs u "email"
            setting.email_enabled setting.email_address items eS).1 u
            "telegram" setting.telegram_enabled setting.telegram_chat_id
            items tS).1, 0, "") := by
        by_cases hon : (setting.telegram_enabled &&
            pyTruthyStr setting.telegram_chat_id) = true
        · exact dispatchChannel_all_logged _ u "telegram"
            setting.telegram_enabled setting.telegram_chat_id items tS'
            (hallT hon)
        · simp only [dispatchChannel]
          rw [if_neg hon]
      rw [hT']
  · intro logs u setting item item' eS tS eS' tS' htog hen haddr hc ha hprice
      hnotlogged heS'
    have hkey_ne : bargain_dedupe_key item' ≠ bargain_dedupe_key item :=
      fun h => hprice ((bargain_dedupe_key_price_iff item' item hc ha).mp h)
    have hno1 : ¬ (([item] : List BargainItem).isEmpty
        || !setting.bargain_alert_enabled) = true := by
      simp [htog]
    have hno2 : ¬ (([item'] : List BargainItem).isEmpty
        || !setting.bargain_alert_enabled) = true := by
      simp [htog]
    have hL1 : loggedBargain
        (dispatch_user_bargain_alerts logs u setting [item] eS tS).1 u "email"
        (bargain_dedupe_key item') = false := by
      rw [dispatch_unfold logs u setting [item] eS tS hno1]
      have hE1 : loggedBargain
          (dispatchChannel logs u "email" setting.email_enabled
            setting.email_address [item] eS).1 u "email"
          (bargain_dedupe_key item') = false := by
        rcases dispatchChannel_shape logs u "email" setting.email_enabled
            setting.email_address [item] eS with hs | ⟨ks, hks, hs⟩
        · rw [hs]
          exact hnotlogged
        · rw [hs, loggedBargain_append, hnotlogged,
            loggedBargain_records_same]
          have : ks.contains (bargain_dedupe_key item') = false := by
            rcases hcont : ks.contains (bargain_dedupe_key item') with _ | _
            · rfl
            · exfalso
              obtain ⟨i, hi, hk⟩ := hks _ (List.mem_of_elem_eq_true hcont)
              rw [List.mem_singleton] at hi
              subst hi
              exact hkey_ne hk
          rw [this]
          rfl
      rcases dispatchChannel_shape
          (dispatchChannel logs u "email" setting.email_enabled
            setting.email_address [item] eS).1 u "telegram"
          setting.telegram_enabled setting.telegram_chat_id [item] tS
        with hs | ⟨ks, _hks, hs⟩
      · rw [hs]
        exact hE1
      · rw [hs, loggedBargain_append, hE1,
          loggedBargain_records_other u "email" "telegram" (by decide) ks]
        rfl
    rw [dispatch_unfold _ u setting [item'] eS' tS' hno2]
    have hstep : dispatchChannel
        (dispatch_user_bargain_alerts logs u setting [item] eS tS).1 u "email"
        setting.email_enabled setting.email_address [item'] eS' =
        ((dispatch_user_bargain_alerts logs u setting [item] eS tS).1 ++
          [{ user_id := u, channel := "email", alert_type := "bargain",
             dedupe_key := bargain_dedupe_key item' }], 1, eS'.2) := by
      simp only [dispatchChannel]
      rw [if_pos (by rw [hen, haddr]; rfl)]
      rw [filter_unsent_items_eq]
      simp only [List.filter_cons, hL1, Bool.not_false, if_true,
        List.filter_nil, List.map_cons, List.map_nil]
      rw [if_pos (by rfl), if_pos heS']
      rfl
    rw [hstep]

/-- C9 witness setting: both channels enabled with destinations, bargain
alerts on. -/
def exSetting : UserNotificationSetting :=
  { email_enabled := true, email_address := some "a@b.c",
    telegram_enabled := true, telegram_chat_id := some "t1",
    bargain_alert_enabled := true }

/-- C9 witness item and its re-priced version. -/
def exItem : BargainItem :=
  { complex_no := some 7, article_no := some 100, deal_price_manwon := some 5000 }

/-- The same article at a different deal price. -/
def exItemRepriced : BargainItem :=
  { complex_no := some 7, article_no := some 100, deal_price_manwon := some 5100 }

/-- C9 witness: a second dispatch with the unchanged single-item set sends 0
on both channels and leaves the log unchanged; dispatching the re-priced item
afterwards sends it as a new email event. -/
theorem bargain_alert_idempotence_witness :
    (dispatch_user_bargain_alerts
        (dispatch_user_bargain_alerts [] 1 exSetting [exItem]
          (true, "ok") (true, "ok")).1
        1 exSetting [exItem] (true, "ok") (true, "ok") =
      ((dispatch_user_bargain_alerts [] 1 exSetting [exItem]
          (true, "ok") (true, "ok")).1,
       { email_sent := 0, telegram_sent := 0, email_reason := "",
         telegram_reason := "" })) ∧
    (dispatch_user_bargain_alerts
        (dispatch_user_bargain_alerts [] 1 exSetting [exItem]
          (true, "ok") (true, "ok")).1
        1 exSetting [exItemRepriced] (true, "ok") (true, "ok")).2.email_sent
      = 1 :=
  ⟨bargain_alert_idempotence.2.2.1 [] 1 exSetting [exItem]
     (true, "ok") (true, "ok") (true, "ok") (true, "ok") rfl rfl,
   bargain_alert_idempotence.2.2.2 [] 1 exSetting exItem exItemRepriced
     (true, "ok") (true, "ok") (true, "ok") (true, "ok")
     rfl rfl (by decide) rfl rfl (by decide) rfl rfl⟩
